import Mathlib

/- Formal model of the rule-based query engine of the `data_insight_pro`
   repository: `ai_assistant.query_data_with_ai` and
   `data_processor.detect_data_types`.  Python float arithmetic on finite
   values is modelled as exact rational arithmetic, `NaN` as an explicit
   missing value, and `float("inf")` as an explicit symbol.  Rational
   operations are spelled through `mkRat` so that they evaluate inside the
   kernel; bridge lemmas identify them with the ordinary field operations. -/

/-- Rational addition through `mkRat` (kernel-evaluable); equals `a + b`. -/
def qAdd (a b : ℚ) : ℚ := mkRat (a.num * b.den + b.num * a.den) (a.den * b.den)

/-- Rational subtraction through `mkRat` (kernel-evaluable); equals `a - b`. -/
def qSub (a b : ℚ) : ℚ := mkRat (a.num * b.den - b.num * a.den) (a.den * b.den)

/-- Rational multiplication through `mkRat` (kernel-evaluable); equals `a * b`. -/
def qMul (a b : ℚ) : ℚ := mkRat (a.num * b.num) (a.den * b.den)

/-- Rational division through `mkRat` (kernel-evaluable); equals `a / b`,
    with the Lean convention that division by zero yields zero. -/
def qDiv (a b : ℚ) : ℚ :=
  if b.num < 0 then mkRat (-(a.num * b.den)) (a.den * b.num.natAbs)
  else mkRat (a.num * b.den) (a.den * b.num.natAbs)

/-- Embedding of a natural number as a rational, kernel-evaluable. -/
def qOfNat (n : ℕ) : ℚ := mkRat n 1

theorem qAdd_eq (a b : ℚ) : qAdd a b = a + b := by
  rw [qAdd, Rat.mkRat_eq_div]
  conv_rhs => rw [← Rat.num_div_den a, ← Rat.num_div_den b]
  have ha : ((a.den : ℚ)) ≠ 0 := by exact_mod_cast a.den_nz
  have hb : ((b.den : ℚ)) ≠ 0 := by exact_mod_cast b.den_nz
  push_cast
  field_simp

theorem qSub_eq (a b : ℚ) : qSub a b = a - b := by
  rw [qSub, Rat.mkRat_eq_div]
  conv_rhs => rw [← Rat.num_div_den a, ← Rat.num_div_den b]
  have ha : ((a.den : ℚ)) ≠ 0 := by exact_mod_cast a.den_nz
  have hb : ((b.den : ℚ)) ≠ 0 := by exact_mod_cast b.den_nz
  push_cast
  rw [div_sub_div _ _ ha hb]
  ring_nf

theorem qMul_eq (a b : ℚ) : qMul a b = a * b := by
  rw [qMul, Rat.mkRat_eq_div]
  conv_rhs => rw [← Rat.num_div_den a, ← Rat.num_div_den b]
  have ha : ((a.den : ℚ)) ≠ 0 := by exact_mod_cast a.den_nz
  have hb : ((b.den : ℚ)) ≠ 0 := by exact_mod_cast b.den_nz
  push_cast
  field_simp

theorem qDiv_eq (a b : ℚ) : qDiv a b = a / b := by
  rcases eq_or_ne b 0 with hb | hb
  · subst hb
    simp [qDiv, Rat.mkRat_eq_div]
  · have hbn : b.num ≠ 0 := Rat.num_ne_zero.mpr hb
    have hbq : ((b.num : ℚ)) ≠ 0 := by exact_mod_cast hbn
    have ha : ((a.den : ℚ)) ≠ 0 := by exact_mod_cast a.den_nz
    have hd : ((b.den : ℚ)) ≠ 0 := by exact_mod_cast b.den_nz
    have habs : ((b.num.natAbs : ℚ)) = |((b.num : ℚ))| := by
      rw [← Int.cast_natCast, Int.natCast_natAbs]
      push_cast
      rfl
    rcases lt_or_ge b.num 0 with hneg | hpos
    · rw [qDiv, if_pos hneg, Rat.mkRat_eq_div]
      conv_rhs => rw [← Rat.num_div_den a, ← Rat.num_div_den b]
      push_cast
      rw [habs, abs_of_neg (by exact_mod_cast hneg : ((b.num : ℚ)) < 0)]
      field_simp
    · rw [qDiv, if_neg (not_lt.mpr hpos), Rat.mkRat_eq_div]
      conv_rhs => rw [← Rat.num_div_den a, ← Rat.num_div_den b]
      push_cast
      rw [habs, abs_of_nonneg (by exact_mod_cast hpos : (0 : ℚ) ≤ ((b.num : ℚ)))]
      field_simp

theorem qOfNat_eq (n : ℕ) : qOfNat n = (n : ℚ) := by
  rw [qOfNat, Rat.mkRat_eq_div]
  simp

/-- Decidable equality for `Except`, needed to evaluate results by `decide`. -/
def exceptDecEq {e a : Type} [DecidableEq e] [DecidableEq a] :
    DecidableEq (Except e a) := fun x y =>
  match x, y with
  | .ok v, .ok w =>
      if h : v = w then isTrue (by rw [h])
      else isFalse (by intro hc; injection hc with h2; exact h h2)
  | .error v, .error w =>
      if h : v = w then isTrue (by rw [h])
      else isFalse (by intro hc; injection hc with h2; exact h h2)
  | .ok _, .error _ => isFalse (fun hc => Except.noConfusion hc)
  | .error _, .ok _ => isFalse (fun hc => Except.noConfusion hc)

instance {e a : Type} [DecidableEq e] [DecidableEq a] : DecidableEq (Except e a) :=
  exceptDecEq

/-- Test whether `pat` is an initial segment of `s` (on character lists). -/
def charsHead : List Char → List Char → Bool
  | _, [] => true
  | [], _ :: _ => false
  | a :: s, b :: p => a == b && charsHead s p

/-- Python substring containment `pat in s`: `pat` occurs contiguously in `s`.
    The empty pattern is contained in every string, as in Python. -/
def charsHas : List Char → List Char → Bool
  | [], pat => pat.isEmpty
  | s@(_ :: t), pat => charsHead s pat || charsHas t pat

/-- Model of Python `str.lower()` composed with iteration over characters. -/
def lowerChars (s : String) : List Char := s.toList.map Char.toLower

/-- Cell value of a dataframe: a finite number, a string, or a missing
    value (Python `NaN` / `None`).  Python booleans compare equal to the
    numbers `0` and `1`, so boolean cells are modelled as `num 0` / `num 1`. -/
inductive Val where
  | num (q : ℚ)
  | str (s : String)
  | na
deriving DecidableEq, Repr

/-- Declared dtype of a pandas column, as far as the code under study
    distinguishes dtypes: `np.number` dtypes, datetime dtypes, `object`
    dtypes, the pandas `bool` dtype, and everything else. -/
inductive ColKind where
  | numeric
  | datetime
  | object
  | boolCol
  | other
deriving DecidableEq, Repr

/-- A named dataframe column: a dtype tag and the list of its cells. -/
structure Col where
  name : String
  kind : ColKind
  cells : List Val
deriving DecidableEq, Repr

/-- A dataframe: an ordered list of named columns.  Well-formedness (all
    columns of equal length, unique names) is assumed by hypothesis where a
    theorem needs it. -/
structure Frame where
  cols : List Col
deriving DecidableEq, Repr

/-- Row count of the frame (`df.shape[0]`), read off the first column. -/
def nrows (df : Frame) : ℕ :=
  match df.cols with
  | [] => 0
  | c :: _ => c.cells.length

/-- Names of the `np.number` columns (`df.select_dtypes(include=[np.number])`;
    this excludes the pandas `bool` dtype). -/
def numericColNames (df : Frame) : List String :=
  (df.cols.filter (fun c => c.kind == ColKind.numeric)).map (fun c => c.name)

/-- Names of the non-numeric columns (`df.select_dtypes(exclude=[np.number])`). -/
def categoricalColNames (df : Frame) : List String :=
  (df.cols.filter (fun c => c.kind != ColKind.numeric)).map (fun c => c.name)

/-- Names of the datetime columns (`df.select_dtypes(include=["datetime"])`). -/
def datetimeColNames (df : Frame) : List String :=
  (df.cols.filter (fun c => c.kind == ColKind.datetime)).map (fun c => c.name)

/-- First column carrying the given name (`df[name]`; names are unique in a
    well-formed frame). -/
def colByName (df : Frame) (n : String) : Option Col :=
  df.cols.find? (fun c => c.name == n)

/-- Numeric entries of a column, with missing values dropped: the values an
    aggregating pandas method (`mean`, `max`, ...) actually works on. -/
def cellsQ (c : Col) : List ℚ :=
  c.cells.filterMap (fun v => match v with | .num q => some q | _ => none)

/-- Cells that are not missing (`dropna`). -/
def nonNaCells (c : Col) : List Val :=
  c.cells.filter (fun v => v != Val.na)

/-- Mean of a numeric column, `NaN` (`none`) when no value is present. -/
def colMean (c : Col) : Option ℚ :=
  match cellsQ c with
  | [] => none
  | q :: qs => some (qDiv (List.foldl qAdd q qs) (qOfNat (q :: qs).length))

/-- Maximum of a numeric column ignoring missing values (`Series.max`). -/
def colMax (c : Col) : Option ℚ := (cellsQ c).max?

/-- Minimum of a numeric column ignoring missing values (`Series.min`). -/
def colMin (c : Col) : Option ℚ := (cellsQ c).min?

/-- Insert into a sorted list, keeping earlier elements in front of later
    equal ones (stability). -/
def insertLe {α : Type} (le : α → α → Bool) (a : α) : List α → List α
  | [] => [a]
  | b :: bs => if le a b then a :: b :: bs else b :: insertLe le a bs

/-- Stable insertion sort. -/
def insSort {α : Type} (le : α → α → Bool) : List α → List α
  | [] => []
  | a :: as => insertLe le a (insSort le as)

/-- Median with linear interpolation, as `Series.median` computes it:
    middle element for odd counts, mean of the two middle elements for even
    counts, `NaN` (`none`) for an empty column. -/
def colMedian (c : Col) : Option ℚ :=
  let s := insSort (fun a b => decide (a ≤ b)) (cellsQ c)
  let n := s.length
  if n = 0 then none
  else if n % 2 = 1 then s.get? (n / 2)
  else match s.get? (n / 2 - 1), s.get? (n / 2) with
    | some a, some b => some (qDiv (qAdd a b) 2)
    | _, _ => none

/-- Sample variance (`ddof=1`).  The standard deviation that
    `Series.std` reports is the square root of this value; only the
    radicand is kept, since it determines the reported number exactly. -/
def colVar (c : Col) : Option ℚ :=
  let qs := cellsQ c
  let n := qs.length
  if n ≤ 1 then none
  else match colMean c with
    | none => none
    | some m => some (qDiv (List.foldl qAdd 0 (qs.map (fun x => qMul (qSub x m) (qSub x m)))) (qOfNat (n - 1)))

/-- Index of the first cell satisfying the predicate. -/
def firstIdx {α : Type} (p : α → Bool) : List α → Option ℕ
  | [] => none
  | a :: as => if p a then some 0 else (firstIdx p as).map (fun i => i + 1)

/-- Full row of the frame at a positional index (`df.loc[i]` under the
    default range index): every column name paired with its cell. -/
def rowAt (df : Frame) (i : ℕ) : List (String × Val) :=
  df.cols.map (fun c => (c.name, c.cells.getD i Val.na))

/-- Distinct values in order of first appearance (`Series.unique`). -/
def firstUniques (l : List Val) : List Val :=
  l.foldl (fun acc v => if acc.contains v then acc else acc ++ [v]) []

/-- Number of distinct non-missing values (`Series.nunique`). -/
def nunique (c : Col) : ℕ := (firstUniques (nonNaCells c)).length

/-- Ordering used to sort cell values, total on cells of a uniform dtype:
    numbers and strings by their order, missing values last (pandas puts
    `NaN` at the end when sorting). -/
def valLe : Val → Val → Bool
  | _, .na => true
  | .na, _ => false
  | .num a, .num b => decide (a ≤ b)
  | .str a, .str b => decide (a ≤ b)
  | .num _, .str _ => true
  | .str _, .num _ => false

/-- Value counts of a column (`Series.value_counts`): distinct non-missing
    values with their multiplicities, sorted by descending count. -/
def valueCounts (c : Col) : List (Val × ℕ) :=
  let vs := nonNaCells c
  insSort (fun a b => decide (b.2 ≤ a.2)) ((firstUniques vs).map (fun k => (k, vs.count k)))

/-- Row order produced by sorting the frame on a key column
    (`df.sort_values(by=key)`): the row indices stably sorted by the key
    cells, missing keys last. -/
def sortIdxBy (key : List Val) : List ℕ :=
  insSort (fun i j => valLe (key.getD i Val.na) (key.getD j Val.na)) (List.range key.length)

/-- Statistical sub-intent dispatched inside the `elif` chain of branch 2
    of `query_data_with_ai`. -/
inductive StatKind where
  | meanK
  | medianK
  | maxK
  | minK
  | corrK
deriving DecidableEq, Repr

/-- Analytical intent a query is classified into.  `statNone` stands for
    the (provably unreachable) situation in that the statistical branch is
    entered but no sub-branch fires, in that case the code returns an empty
    response. -/
inductive Intent where
  | summary
  | statistical (k : StatKind)
  | statNone
  | distribution
  | comparison
  | trend
  | fallback
deriving DecidableEq, Repr

/-- Keyword list guarding the summary branch. -/
def summaryWords : List String := ["summarize", "summary", "overview", "describe"]

/-- Keyword list guarding the statistical branch. -/
def statWords : List String :=
  ["average", "mean", "median", "maximum", "minimum", "correlation", "correlate"]

/-- Keyword list guarding the distribution branch. -/
def distWords : List String := ["distribution", "histogram", "spread", "range"]

/-- Keyword list guarding the comparison branch. -/
def compareWords : List String := ["compare", "comparison", "difference", "versus", "vs"]

/-- Keyword list guarding the trend branch. -/
def trendWords : List String := ["trend", "time", "over time", "change", "evolution"]

/-- Name fragments that make a column count as a time axis in the trend
    branch when no datetime column exists. -/
def dateWords : List String := ["date", "time", "year", "month", "day"]

/-- Containment of a fixed keyword in the lowercased query
    (`word in query_lower`). -/
def kwIn (w : String) (ql : List Char) : Bool := charsHas ql w.toList

/-- Membership test of any keyword of a list
    (`any(word in query_lower for word in ws)`). -/
def anyKwIn (ws : List String) (ql : List Char) : Bool := ws.any (fun w => kwIn w ql)

/-- Sub-dispatch of the statistical branch, in the exact `elif` order of
    the source: average/mean, then median, then maximum/max, then
    minimum/min, then correlation/correlate. -/
def statSubKind (ql : List Char) : Option StatKind :=
  if kwIn "average" ql || kwIn "mean" ql then some StatKind.meanK
  else if kwIn "median" ql then some StatKind.medianK
  else if kwIn "maximum" ql || kwIn "max" ql then some StatKind.maxK
  else if kwIn "minimum" ql || kwIn "min" ql then some StatKind.minK
  else if kwIn "correlation" ql || kwIn "correlate" ql then some StatKind.corrK
  else none

/-- Intent classification: the `if`/`elif` chain of `query_data_with_ai`
    on the lowercased query, in source order (summary, statistical,
    distribution, comparison, trend, fallback; first match wins). -/
def classifyIntent (ql : List Char) : Intent :=
  if anyKwIn summaryWords ql then Intent.summary
  else if anyKwIn statWords ql then
    match statSubKind ql with
    | some k => Intent.statistical k
    | none => Intent.statNone
  else if anyKwIn distWords ql then Intent.distribution
  else if anyKwIn compareWords ql then Intent.comparison
  else if anyKwIn trendWords ql then Intent.trend
  else Intent.fallback

/-- Exact value of one Pearson correlation entry.  The float the code
    computes is `cov / sqrt(den)`; the pair `(cov, den)` with `den > 0`
    determines that value exactly and supports the exact comparison of
    absolute values that the scan of the matrix performs. -/
structure CorrVal where
  cov : ℚ
  den : ℚ
deriving DecidableEq, Repr

/-- Pearson correlation of two cell lists, `none` for the `NaN` entries
    (fewer than two paired observations or a zero variance).  Pairs with a
    missing value on either side are dropped, as `DataFrame.corr` does. -/
def pearson (a b : List Val) : Option CorrVal :=
  let ps := (a.zip b).filterMap (fun p =>
    match p with
    | (.num x, .num y) => some (x, y)
    | _ => none)
  let n := ps.length
  let mx := qDiv (List.foldl qAdd 0 (ps.map Prod.fst)) (qOfNat n)
  let my := qDiv (List.foldl qAdd 0 (ps.map Prod.snd)) (qOfNat n)
  let cov := List.foldl qAdd 0 (ps.map (fun p => qMul (qSub p.1 mx) (qSub p.2 my)))
  let dx := List.foldl qAdd 0 (ps.map (fun p => qMul (qSub p.1 mx) (qSub p.1 mx)))
  let dy := List.foldl qAdd 0 (ps.map (fun p => qMul (qSub p.2 my) (qSub p.2 my)))
  if qMul dx dy = 0 then none else some ⟨cov, qMul dx dy⟩

/-- All ordered column pairs in the order of the nested `for col1 ... for
    col2` loops over the columns of the correlation matrix. -/
def pairList (cols : List String) : List (String × String) :=
  cols.flatMap (fun c1 => cols.map (fun c2 => (c1, c2)))

/-- Comparison `abs(corr) > highest` performed by the scan.  The entry is
    `cov / sqrt(den)` and the accumulator holds `acc.cov / sqrt(acc.den)`
    with both `den` positive, so the comparison of absolute values is the
    cross-multiplied comparison of squares; a `NaN` entry compares false. -/
def absGtB (x : Option CorrVal) (acc : CorrVal) : Bool :=
  match x with
  | none => false
  | some v => decide (qMul (qMul acc.cov acc.cov) v.den < qMul (qMul v.cov v.cov) acc.den)

/-- One step of the highest-correlation scan: on `col1 != col2` and a
    strictly larger absolute correlation, the accumulator is replaced by
    the absolute value of the entry together with the pair. -/
def hcStep (m : String → String → Option CorrVal) (acc : CorrVal × String × String)
    (p : String × String) : CorrVal × String × String :=
  match m p.1 p.2 with
  | some v =>
      if p.1 != p.2 && absGtB (some v) acc.1 then (⟨|v.cov|, v.den⟩, p.1, p.2) else acc
  | none => acc

/-- The nested loop of the correlation branch: scan all ordered pairs,
    starting from `highest_corr = 0` and the empty pair, keeping a strict
    greater-than winner. -/
def findHighest (m : String → String → Option CorrVal) (cols : List String) :
    CorrVal × String × String :=
  (pairList cols).foldl (hcStep m) (⟨0, 1⟩, "", "")

/-- Correlation matrix of the frame as an entry function
    (`df[numeric_cols].corr()` looked up at a pair of column names). -/
def corrMat (df : Frame) : String → String → Option CorrVal := fun n1 n2 =>
  match colByName df n1, colByName df n2 with
  | some c1, some c2 => pearson c1.cells c2.cells
  | _, _ => none

/-- Python exceptions that `query_data_with_ai` can let escape. -/
inductive PyErr where
  | keyError
  | valueError
  | indexError
deriving DecidableEq, Repr

/-- Chart specification produced alongside a response: the chart kind with
    its column encodings and reference-line annotation, abstracting the
    plotly figure the code builds. -/
inductive Chart where
  | scatterMatrix (dims : List String)
  | histogram (x : String) (marginalBox : Bool) (vline : Option ℚ)
  | corrHeatmap (cols : List String)
  | crosstabHeatmap (c1 c2 : String)
  | scatter (x y : String) (trendline : Bool)
  | bar (x : String)
  | box (x y : String)
  | line (x y : String)
deriving DecidableEq, Repr

/-- Aggregates reported for one numeric column in a comparison. -/
structure NumStats where
  mean : Option ℚ
  med : Option ℚ
  mn : Option ℚ
  mx : Option ℚ
deriving DecidableEq, Repr

/-- The four aggregates of a numeric column. -/
def numStatsOf (c : Col) : NumStats :=
  ⟨colMean c, colMedian c, colMin c, colMax c⟩

/-- One line of the summary report for one column. -/
inductive SummaryLine where
  | numericLine (col : String) (mn mx mean med : Option ℚ)
  | datetimeLine (col : String) (mn mx : Option Val)
  | categoricalLine (col : String) (uniqueCount : ℕ)
deriving DecidableEq, Repr

/-- Percent change reported by the trend branch: a finite value, positive
    infinity (`float("inf")`), or `NaN`. -/
inductive PctVal where
  | val (q : ℚ)
  | posInf
  | nan
deriving DecidableEq, Repr

/-- Percent change `((last - first) / first) * 100 if first != 0 else inf`.
    A missing first value satisfies the Python test `NaN != 0`, so the
    formula is evaluated and propagates `NaN`. -/
def pctChange (firstVal lastVal : Val) : PctVal :=
  match firstVal with
  | .num f =>
      if f = 0 then PctVal.posInf
      else
        match lastVal with
        | .num l => PctVal.val (qMul (qDiv (qSub l f) f) 100)
        | _ => PctVal.nan
  | _ => PctVal.nan

/-- Difference of two cells (`last_val - first_val`), `NaN`-propagating. -/
def subVal : Val → Val → Val
  | .num a, .num b => .num (qSub a b)
  | _, _ => .na

/-- Response of the engine: one constructor per textual template of the
    source, carrying exactly the values interpolated into that template. -/
inductive Response where
  | empty
  | summary (nr nc : ℕ) (lines : List SummaryLine)
  | avgAnalysis (col : String) (mean : Option ℚ)
  | medianAnalysis (col : String) (med : Option ℚ)
  | maxAnalysis (col : String) (val : ℚ) (row : List (String × Val))
  | minAnalysis (col : String) (val : ℚ) (row : List (String × Val))
  | corrAnalysis (c1 c2 : String) (coeff : Option CorrVal)
  | notEnoughNumeric
  | cantIdentifyNumeric (stat : String)
  | distNumeric (col : String) (mean med variance mn mx : Option ℚ)
  | distCategorical (col : String) (uniqueCount : ℕ) (top : List (Val × ℕ × ℚ))
  | cantIdentifyColumn
  | comparisonNN (c1 c2 : String) (s1 s2 : NumStats) (corr : Option CorrVal)
  | comparisonNC (catCol numCol : String) (groups : List (Val × NumStats))
  | comparisonCC (c1 c2 : String) (table : List (Val × List (Val × ℕ)))
  | cantIdentifyCompare
  | trendAnalysis (target time : String) (firstVal lastVal diff : Val) (pct : PctVal)
  | cantIdentifyTrendValue
  | noTimeColumn
  | fallbackAnalysis (nr nc : ℕ)
      (numOverview : List (String × Option ℚ × Option ℚ × Option ℚ))
      (catOverview : List (String × ℕ × Option (Val × ℕ)))
deriving DecidableEq, Repr

/-- Python truthiness of an optional column name: `None` and the empty
    string are falsy (`if target_col:`). -/
def optTruthy : Option String → Bool
  | none => false
  | some s => !s.isEmpty

/-- Column lookup loop shared by the single-column branches: the first
    column whose lowercased name occurs in the lowercased query
    (`for col in df.columns: if col.lower() in query_lower: break`). -/
def findTargetCol (ql : List Char) (df : Frame) : Option Col :=
  df.cols.find? (fun c => charsHas ql (lowerChars c.name))

/-- The mean branch (`"average" in query_lower or "mean" in query_lower`). -/
def meanBranch (ql : List Char) (df : Frame) : Except PyErr (Response × Option Chart) :=
  match findTargetCol ql df with
  | some c =>
      if !c.name.isEmpty && (numericColNames df).contains c.name then
        .ok (.avgAnalysis c.name (colMean c), some (.histogram c.name false (colMean c)))
      else .ok (.cantIdentifyNumeric "average", none)
  | none => .ok (.cantIdentifyNumeric "average", none)

/-- The median branch. -/
def medianBranch (ql : List Char) (df : Frame) : Except PyErr (Response × Option Chart) :=
  match findTargetCol ql df with
  | some c =>
      if !c.name.isEmpty && (numericColNames df).contains c.name then
        .ok (.medianAnalysis c.name (colMedian c), some (.histogram c.name false (colMedian c)))
      else .ok (.cantIdentifyNumeric "median", none)
  | none => .ok (.cantIdentifyNumeric "median", none)

/-- The maximum branch: value, full row at `idxmax` (the first index of
    the maximum) and an annotated histogram.  With no non-missing value,
    `Series.idxmax` raises `ValueError`. -/
def maxBranch (ql : List Char) (df : Frame) : Except PyErr (Response × Option Chart) :=
  match findTargetCol ql df with
  | some c =>
      if !c.name.isEmpty && (numericColNames df).contains c.name then
        match colMax c with
        | some m =>
            match firstIdx (fun v => v == Val.num m) c.cells with
            | some i =>
                .ok (.maxAnalysis c.name m (rowAt df i), some (.histogram c.name false (some m)))
            | none => .error .valueError
        | none => .error .valueError
      else .ok (.cantIdentifyNumeric "maximum", none)
  | none => .ok (.cantIdentifyNumeric "maximum", none)

/-- The minimum branch, mirror image of the maximum branch. -/
def minBranch (ql : List Char) (df : Frame) : Except PyErr (Response × Option Chart) :=
  match findTargetCol ql df with
  | some c =>
      if !c.name.isEmpty && (numericColNames df).contains c.name then
        match colMin c with
        | some m =>
            match firstIdx (fun v => v == Val.num m) c.cells with
            | some i =>
                .ok (.minAnalysis c.name m (rowAt df i), some (.histogram c.name false (some m)))
            | none => .error .valueError
        | none => .error .valueError
      else .ok (.cantIdentifyNumeric "minimum", none)
  | none => .ok (.cantIdentifyNumeric "minimum", none)

/-- The correlation branch: with at least two numeric columns the full
    matrix is scanned for the strictly largest absolute entry; the report
    then reads the matrix at the winning pair with `.loc`, raising
    `KeyError` when the scan never selected a pair (all entries `NaN` or
    zero) and the winner is still the pair of empty names.  A heatmap of
    the matrix is assigned first and then overridden by the scatter plot
    of the winning pair. -/
def corrBranch (df : Frame) : Except PyErr (Response × Option Chart) :=
  let ncols := numericColNames df
  if 2 ≤ ncols.length then
    let hc := findHighest (corrMat df) ncols
    let c1 := hc.2.1
    let c2 := hc.2.2
    if ncols.contains c1 && ncols.contains c2 then
      let coeff := corrMat df c1 c2
      let viz : Option Chart := some (.corrHeatmap ncols)
      let viz := some (Chart.scatter c1 c2 true)
      .ok (.corrAnalysis c1 c2 coeff, viz)
    else .error .keyError
  else .ok (.notEnoughNumeric, none)

/-- The distribution branch: numeric statistics or categorical value
    counts (top five, with percentage of all rows) for the first column
    named in the query. -/
def distBranch (ql : List Char) (df : Frame) : Except PyErr (Response × Option Chart) :=
  match findTargetCol ql df with
  | some c =>
      if !c.name.isEmpty then
        if (numericColNames df).contains c.name then
          .ok (.distNumeric c.name (colMean c) (colMedian c) (colVar c) (colMin c) (colMax c),
               some (.histogram c.name true none))
        else
          let vcs := valueCounts c
          .ok (.distCategorical c.name vcs.length
                 ((vcs.take 5).map (fun p => (p.1, p.2, qMul (qDiv (qOfNat p.2) (qOfNat (nrows df))) 100))),
               some (.bar c.name))
      else .ok (.cantIdentifyColumn, none)
  | none => .ok (.cantIdentifyColumn, none)

/-- Group-by aggregation for the mixed comparison case
    (`df.groupby(cat_col)[num_col].agg(...)`): keys are the distinct
    non-missing categorical values in ascending order. -/
def groupStats (catc numc : Col) : List (Val × NumStats) :=
  let keys := insSort valLe (firstUniques (catc.cells.filter (fun v => v != Val.na)))
  keys.map (fun k =>
    (k, numStatsOf ⟨numc.name, numc.kind,
          ((catc.cells.zip numc.cells).filter (fun p => p.1 == k)).map Prod.snd⟩))

/-- Contingency table for the doubly categorical comparison case
    (`pd.crosstab`): counts of co-occurrences over sorted distinct keys. -/
def crosstab (a b : Col) : List (Val × List (Val × ℕ)) :=
  let rows := insSort valLe (firstUniques (a.cells.filter (fun v => v != Val.na)))
  let cols := insSort valLe (firstUniques (b.cells.filter (fun v => v != Val.na)))
  rows.map (fun r =>
    (r, cols.map (fun cl =>
        (cl, ((a.cells.zip b.cells).filter (fun p => p.1 == r && p.2 == cl)).length))))

/-- The comparison branch: all matching columns are collected and the
    first two are compared, with three cases by dtype. -/
def compareBranch (ql : List Char) (df : Frame) : Except PyErr (Response × Option Chart) :=
  let matched := df.cols.filter (fun c => charsHas ql (lowerChars c.name))
  match matched with
  | c1 :: c2 :: _ =>
      if (numericColNames df).contains c1.name && (numericColNames df).contains c2.name then
        .ok (.comparisonNN c1.name c2.name (numStatsOf c1) (numStatsOf c2)
               (pearson c1.cells c2.cells),
             some (.scatter c1.name c2.name true))
      else if ((categoricalColNames df).contains c1.name
                 && (numericColNames df).contains c2.name)
              || ((numericColNames df).contains c1.name
                 && (categoricalColNames df).contains c2.name) then
        let catc := if (categoricalColNames df).contains c1.name then c1 else c2
        let numc := if (categoricalColNames df).contains c1.name then c2 else c1
        .ok (.comparisonNC catc.name numc.name (groupStats catc numc),
             some (.box catc.name numc.name))
      else
        .ok (.comparisonCC c1.name c2.name (crosstab c1 c2),
             some (.crosstabHeatmap c1.name c2.name))
  | _ => .ok (.cantIdentifyCompare, none)

/-- Time-column resolution of the trend branch: the first datetime column
    if one exists (and is truthy), else the first column whose lowercased
    name contains one of the date words. -/
def resolveTimeCol (df : Frame) : Option String :=
  let t0 := (datetimeColNames df).head?
  if !optTruthy t0 then
    match df.cols.find? (fun c => dateWords.any (fun w => charsHas (lowerChars c.name) w.toList)) with
    | some c => some c.name
    | none => t0
  else t0

/-- Value-column resolution of the trend branch: the first numeric column
    named in the query, else the first numeric column of the frame. -/
def resolveTrendTarget (ql : List Char) (df : Frame) : Option String :=
  let t0 := (numericColNames df).find? (fun n => charsHas ql (lowerChars n))
  if !optTruthy t0 && !(numericColNames df).isEmpty then some ((numericColNames df).headD "")
  else t0

/-- The trend branch: sort by the resolved time column, report first and
    last value of the resolved value column with difference and percent
    change, and a line chart.  `iloc[0]` on an empty frame raises
    `IndexError`. -/
def trendBranch (ql : List Char) (df : Frame) : Except PyErr (Response × Option Chart) :=
  let timeCol := resolveTimeCol df
  if optTruthy timeCol then
    let tc := timeCol.getD ""
    let target := resolveTrendTarget ql df
    if optTruthy target then
      let t := target.getD ""
      match colByName df tc, colByName df t with
      | some kc, some vc =>
          let sidx := sortIdxBy kc.cells
          match sidx.head?, sidx.getLast? with
          | some i, some j =>
              let fv := vc.cells.getD i Val.na
              let lv := vc.cells.getD j Val.na
              .ok (.trendAnalysis t tc fv lv (subVal lv fv) (pctChange fv lv),
                   some (.line tc t))
          | _, _ => .error .indexError
      | _, _ => .error .keyError
    else .ok (.cantIdentifyTrendValue, none)
  else .ok (.noTimeColumn, none)

/-- One summary line per column, in the order of the summary loop. -/
def summaryLines (df : Frame) : List SummaryLine :=
  df.cols.map (fun c =>
    if (numericColNames df).contains c.name then
      .numericLine c.name (colMin c) (colMax c) (colMean c) (colMedian c)
    else if (datetimeColNames df).contains c.name then
      .datetimeLine c.name ((insSort valLe (nonNaCells c)).head?)
        ((insSort valLe (nonNaCells c)).getLast?)
    else .categoricalLine c.name (nunique c))

/-- The summary branch: shape, per-column lines, and a scatter matrix of
    the first four numeric columns when at least two exist. -/
def summaryBranch (df : Frame) : Except PyErr (Response × Option Chart) :=
  let viz : Option Chart :=
    if 2 ≤ (numericColNames df).length then
      some (.scatterMatrix ((numericColNames df).take 4))
    else none
  .ok (.summary (nrows df) df.cols.length (summaryLines df), viz)

/-- The fallback branch for unrecognized queries: dataset overview plus a
    default chart chosen by the available column types. -/
def fallbackBranch (df : Frame) : Except PyErr (Response × Option Chart) :=
  let numOverview := (df.cols.filter (fun c => c.kind == ColKind.numeric)).map
    (fun c => (c.name, colMean c, colMin c, colMax c))
  let catOverview := ((df.cols.filter (fun c => c.kind != ColKind.numeric)).take 5).map
    (fun c => (c.name, nunique c, (valueCounts c).head?))
  let viz : Option Chart :=
    if 2 ≤ (numericColNames df).length then some (.corrHeatmap (numericColNames df))
    else if !(numericColNames df).isEmpty then
      some (.histogram ((numericColNames df).headD "") false none)
    else if !(categoricalColNames df).isEmpty then
      some (.bar ((categoricalColNames df).headD ""))
    else none
  .ok (.fallbackAnalysis (nrows df) df.cols.length numOverview catOverview, viz)

/-- The full query engine `query_data_with_ai(query, df)`: lowercase the
    query, classify the intent along the `if`/`elif` chain, and run the
    selected branch. -/
def query_data_with_ai (query : String) (df : Frame) :
    Except PyErr (Response × Option Chart) :=
  let ql := lowerChars query
  match classifyIntent ql with
  | .summary => summaryBranch df
  | .statistical .meanK => meanBranch ql df
  | .statistical .medianK => medianBranch ql df
  | .statistical .maxK => maxBranch ql df
  | .statistical .minK => minBranch ql df
  | .statistical .corrK => corrBranch df
  | .statNone => .ok (.empty, none)
  | .distribution => distBranch ql df
  | .comparison => compareBranch ql df
  | .trend => trendBranch ql df
  | .fallback => fallbackBranch df

/-- The five buckets of `detect_data_types`. -/
inductive Bucket where
  | numeric
  | categorical
  | datetime
  | text
  | boolean
deriving DecidableEq, Repr

/-- Dtype test `pd.api.types.is_numeric_dtype`, true for number dtypes and
    for the pandas `bool` dtype. -/
def isNumericDtype (k : ColKind) : Bool := k == ColKind.numeric || k == ColKind.boolCol

/-- Lengths of the string cells (`Series.str.len()` with `NaN` dropped by
    the subsequent `mean`). -/
def strLens (c : Col) : List ℕ :=
  c.cells.filterMap (fun v => match v with | .str s => some s.length | _ => none)

/-- Test `df[col].str.len().mean() > 50`; the mean of an empty series is
    `NaN` and compares false. -/
def avgLenGt50 (c : Col) : Bool :=
  !(strLens c).isEmpty && decide (50 * (strLens c).length < (strLens c).sum)

/-- Test for a numeric column that is potentially boolean:
    `nunique() <= 2` and all non-missing values within `{0, 1, True, False}`
    (Python booleans equal the numbers `0` and `1`). -/
def boolLike (c : Col) : Bool :=
  decide (nunique c ≤ 2) && (nonNaCells c).all (fun v => v == Val.num 0 || v == Val.num 1)

/-- Classification of one column by `detect_data_types`: datetime first,
    then numeric dtypes split into boolean-like and numeric, then `object`
    dtypes split into text (`nunique > rows * 0.5`, evaluated exactly as
    `rows < 2 * nunique`, or average string length above 50) and
    categorical, and every remaining dtype categorical. -/
def classifyCol (rowCount : ℕ) (c : Col) : Bucket :=
  if c.kind == ColKind.datetime then .datetime
  else if isNumericDtype c.kind then
    if boolLike c then .boolean else .numeric
  else if c.kind == ColKind.object then
    if decide (rowCount < 2 * nunique c) || avgLenGt50 c then .text else .categorical
  else .categorical

/-- Result of `detect_data_types`: the five bucket lists. -/
structure ColumnTypes where
  numeric : List String
  categorical : List String
  datetime : List String
  text : List String
  boolean : List String
deriving DecidableEq, Repr

/-- The classifier `detect_data_types(df)`: every column is appended to
    the bucket list selected by `classifyCol`, in column order (appending
    one column at a time to the selected list equals filtering each bucket). -/
def detect_data_types (df : Frame) : ColumnTypes :=
  { numeric := ((df.cols.filter (fun c => classifyCol (nrows df) c == Bucket.numeric)).map (fun c => c.name))
    categorical := ((df.cols.filter (fun c => classifyCol (nrows df) c == Bucket.categorical)).map (fun c => c.name))
    datetime := ((df.cols.filter (fun c => classifyCol (nrows df) c == Bucket.datetime)).map (fun c => c.name))
    text := ((df.cols.filter (fun c => classifyCol (nrows df) c == Bucket.text)).map (fun c => c.name))
    boolean := ((df.cols.filter (fun c => classifyCol (nrows df) c == Bucket.boolean)).map (fun c => c.name)) }

/-- Bucket list selected by a bucket tag. -/
def ColumnTypes.bucketList (t : ColumnTypes) : Bucket → List String
  | .numeric => t.numeric
  | .categorical => t.categorical
  | .datetime => t.datetime
  | .text => t.text
  | .boolean => t.boolean

/-- The statistical sub-dispatch is total on queries that enter the
    statistical branch: each of the seven entry keywords satisfies one of
    the five sub-branch tests. -/
theorem statSubKind_total (ql : List Char) (h : anyKwIn statWords ql = true) :
    statSubKind ql ≠ none := by
  simp only [anyKwIn, statWords, List.any_cons, List.any_nil, Bool.or_eq_true,
    Bool.or_false] at h
  unfold statSubKind
  split_ifs with h1 h2 h3 h4 h5 <;> simp_all

/-- The sub-branch of kind mean fires exactly when "average" or "mean"
    occurs, before all other sub-branches. -/
theorem statSubKind_meanK_iff (ql : List Char) :
    statSubKind ql = some StatKind.meanK ↔
      (kwIn "average" ql = true ∨ kwIn "mean" ql = true) := by
  unfold statSubKind
  split_ifs with h1 h2 h3 h4 h5 <;> simp_all

/-- The median sub-branch fires exactly when "median" occurs and the mean
    sub-branch did not fire. -/
theorem statSubKind_medianK_iff (ql : List Char) :
    statSubKind ql = some StatKind.medianK ↔
      (kwIn "average" ql = false ∧ kwIn "mean" ql = false ∧ kwIn "median" ql = true) := by
  unfold statSubKind
  split_ifs with h1 h2 h3 h4 h5 <;> simp_all <;> (intros; simp_all)

/-- The maximum sub-branch fires exactly when "maximum" or "max" occurs
    and neither the mean nor the median sub-branch fired. -/
theorem statSubKind_maxK_iff (ql : List Char) :
    statSubKind ql = some StatKind.maxK ↔
      (kwIn "average" ql = false ∧ kwIn "mean" ql = false ∧ kwIn "median" ql = false ∧
       (kwIn "maximum" ql = true ∨ kwIn "max" ql = true)) := by
  unfold statSubKind
  split_ifs with h1 h2 h3 h4 h5 <;> simp_all <;> (intros; simp_all)

/-- The minimum sub-branch fires exactly when "minimum" or "min" occurs
    and no earlier sub-branch fired. -/
theorem statSubKind_minK_iff (ql : List Char) :
    statSubKind ql = some StatKind.minK ↔
      (kwIn "average" ql = false ∧ kwIn "mean" ql = false ∧ kwIn "median" ql = false ∧
       kwIn "maximum" ql = false ∧ kwIn "max" ql = false ∧
       (kwIn "minimum" ql = true ∨ kwIn "min" ql = true)) := by
  unfold statSubKind
  split_ifs with h1 h2 h3 h4 h5 <;> simp_all <;> (intros; simp_all)

/-- The correlation sub-branch fires exactly when "correlation" or
    "correlate" occurs and no earlier sub-branch fired. -/
theorem statSubKind_corrK_iff (ql : List Char) :
    statSubKind ql = some StatKind.corrK ↔
      (kwIn "average" ql = false ∧ kwIn "mean" ql = false ∧ kwIn "median" ql = false ∧
       kwIn "maximum" ql = false ∧ kwIn "max" ql = false ∧
       kwIn "minimum" ql = false ∧ kwIn "min" ql = false ∧
       (kwIn "correlation" ql = true ∨ kwIn "correlate" ql = true)) := by
  unfold statSubKind
  split_ifs with h1 h2 h3 h4 h5 <;> simp_all <;> (intros; simp_all)

/-- A statistical intent is selected exactly when the summary branch did
    not fire, the statistical branch fired, and the sub-dispatch selected
    the given kind. -/
theorem classifyIntent_statistical_iff (ql : List Char) (k : StatKind) :
    classifyIntent ql = Intent.statistical k ↔
      (anyKwIn summaryWords ql = false ∧ anyKwIn statWords ql = true ∧
       statSubKind ql = some k) := by
  unfold classifyIntent
  rcases hsub : statSubKind ql with _ | k <;>
    by_cases hs : anyKwIn summaryWords ql <;>
    by_cases ht : anyKwIn statWords ql <;>
    by_cases hd : anyKwIn distWords ql <;>
    by_cases hc : anyKwIn compareWords ql <;>
    by_cases htr : anyKwIn trendWords ql <;>
    simp_all

/-- The summary intent is selected exactly when a summary keyword occurs. -/
theorem classifyIntent_summary_iff (ql : List Char) :
    classifyIntent ql = Intent.summary ↔ anyKwIn summaryWords ql = true := by
  unfold classifyIntent
  rcases hsub : statSubKind ql with _ | k <;>
    by_cases hs : anyKwIn summaryWords ql <;>
    by_cases ht : anyKwIn statWords ql <;>
    by_cases hd : anyKwIn distWords ql <;>
    by_cases hc : anyKwIn compareWords ql <;>
    by_cases htr : anyKwIn trendWords ql <;>
    simp_all

/-- The dead statistical arm is never selected: entering the statistical
    branch always fires one of the five sub-branches. -/
theorem classifyIntent_ne_statNone (ql : List Char) :
    classifyIntent ql ≠ Intent.statNone := by
  unfold classifyIntent
  rcases hsub : statSubKind ql with _ | k <;>
    by_cases hs : anyKwIn summaryWords ql <;>
    by_cases ht : anyKwIn statWords ql <;>
    by_cases hd : anyKwIn distWords ql <;>
    by_cases hc : anyKwIn compareWords ql <;>
    by_cases htr : anyKwIn trendWords ql <;>
    simp_all <;>
    exact absurd hsub (statSubKind_total ql ht)

/-- The distribution intent is selected exactly when neither the summary
    nor the statistical branch fired and a distribution keyword occurs. -/
theorem classifyIntent_distribution_iff (ql : List Char) :
    classifyIntent ql = Intent.distribution ↔
      (anyKwIn summaryWords ql = false ∧ anyKwIn statWords ql = false ∧
       anyKwIn distWords ql = true) := by
  unfold classifyIntent
  rcases hsub : statSubKind ql with _ | k <;>
    by_cases hs : anyKwIn summaryWords ql <;>
    by_cases ht : anyKwIn statWords ql <;>
    by_cases hd : anyKwIn distWords ql <;>
    by_cases hc : anyKwIn compareWords ql <;>
    by_cases htr : anyKwIn trendWords ql <;>
    simp_all

/-- The comparison intent is selected exactly when no earlier branch fired
    and a comparison keyword occurs. -/
theorem classifyIntent_comparison_iff (ql : List Char) :
    classifyIntent ql = Intent.comparison ↔
      (anyKwIn summaryWords ql = false ∧ anyKwIn statWords ql = false ∧
       anyKwIn distWords ql = false ∧ anyKwIn compareWords ql = true) := by
  unfold classifyIntent
  rcases hsub : statSubKind ql with _ | k <;>
    by_cases hs : anyKwIn summaryWords ql <;>
    by_cases ht : anyKwIn statWords ql <;>
    by_cases hd : anyKwIn distWords ql <;>
    by_cases hc : anyKwIn compareWords ql <;>
    by_cases htr : anyKwIn trendWords ql <;>
    simp_all

/-- The trend intent is selected exactly when no earlier branch fired and
    a trend keyword occurs. -/
theorem classifyIntent_trend_iff (ql : List Char) :
    classifyIntent ql = Intent.trend ↔
      (anyKwIn summaryWords ql = false ∧ anyKwIn statWords ql = false ∧
       anyKwIn distWords ql = false ∧ anyKwIn compareWords ql = false ∧
       anyKwIn trendWords ql = true) := by
  unfold classifyIntent
  rcases hsub : statSubKind ql with _ | k <;>
    by_cases hs : anyKwIn summaryWords ql <;>
    by_cases ht : anyKwIn statWords ql <;>
    by_cases hd : anyKwIn distWords ql <;>
    by_cases hc : anyKwIn compareWords ql <;>
    by_cases htr : anyKwIn trendWords ql <;>
    simp_all

/-- The fallback intent is selected exactly when no branch fired. -/
theorem classifyIntent_fallback_iff (ql : List Char) :
    classifyIntent ql = Intent.fallback ↔
      (anyKwIn summaryWords ql = false ∧ anyKwIn statWords ql = false ∧
       anyKwIn distWords ql = false ∧ anyKwIn compareWords ql = false ∧
       anyKwIn trendWords ql = false) := by
  unfold classifyIntent
  rcases hsub : statSubKind ql with _ | k <;>
    by_cases hs : anyKwIn summaryWords ql <;>
    by_cases ht : anyKwIn statWords ql <;>
    by_cases hd : anyKwIn distWords ql <;>
    by_cases hc : anyKwIn compareWords ql <;>
    by_cases htr : anyKwIn trendWords ql <;>
    simp_all

/-- C1: intent classification is total and deterministic — every query
    string receives exactly one intent, selected by testing the keyword
    sets in the fixed priority order summary, statistical, distribution,
    comparison, trend, fallback (first match wins, case-insensitive
    substring containment against the whole query), with the statistical
    sub-dispatch checking average/mean before median before maximum/max
    before minimum/min before correlation/correlate; in particular the
    query "show me the mean and correlation" is classified as central
    tendency of kind mean. -/
theorem C1_intent_classification :
    (∀ q : String, ∃! i : Intent, classifyIntent (lowerChars q) = i) ∧
    (∀ ql : List Char,
      (classifyIntent ql = Intent.summary ↔ anyKwIn summaryWords ql = true) ∧
      (classifyIntent ql = Intent.statistical StatKind.meanK ↔
        (anyKwIn summaryWords ql = false ∧ anyKwIn statWords ql = true ∧
         (kwIn "average" ql = true ∨ kwIn "mean" ql = true))) ∧
      (classifyIntent ql = Intent.statistical StatKind.medianK ↔
        (anyKwIn summaryWords ql = false ∧ anyKwIn statWords ql = true ∧
         kwIn "average" ql = false ∧ kwIn "mean" ql = false ∧
         kwIn "median" ql = true)) ∧
      (classifyIntent ql = Intent.statistical StatKind.maxK ↔
        (anyKwIn summaryWords ql = false ∧ anyKwIn statWords ql = true ∧
         kwIn "average" ql = false ∧ kwIn "mean" ql = false ∧
         kwIn "median" ql = false ∧
         (kwIn "maximum" ql = true ∨ kwIn "max" ql = true))) ∧
      (classifyIntent ql = Intent.statistical StatKind.minK ↔
        (anyKwIn summaryWords ql = false ∧ anyKwIn statWords ql = true ∧
         kwIn "average" ql = false ∧ kwIn "mean" ql = false ∧
         kwIn "median" ql = false ∧ kwIn "maximum" ql = false ∧
         kwIn "max" ql = false ∧
         (kwIn "minimum" ql = true ∨ kwIn "min" ql = true))) ∧
      (classifyIntent ql = Intent.statistical StatKind.corrK ↔
        (anyKwIn summaryWords ql = false ∧ anyKwIn statWords ql = true ∧
         kwIn "average" ql = false ∧ kwIn "mean" ql = false ∧
         kwIn "median" ql = false ∧ kwIn "maximum" ql = false ∧
         kwIn "max" ql = false ∧ kwIn "minimum" ql = false ∧
         kwIn "min" ql = false ∧
         (kwIn "correlation" ql = true ∨ kwIn "correlate" ql = true))) ∧
      (classifyIntent ql = Intent.distribution ↔
        (anyKwIn summaryWords ql = false ∧ anyKwIn statWords ql = false ∧
         anyKwIn distWords ql = true)) ∧
      (classifyIntent ql = Intent.comparison ↔
        (anyKwIn summaryWords ql = false ∧ anyKwIn statWords ql = false ∧
         anyKwIn distWords ql = false ∧ anyKwIn compareWords ql = true)) ∧
      (classifyIntent ql = Intent.trend ↔
        (anyKwIn summaryWords ql = false ∧ anyKwIn statWords ql = false ∧
         anyKwIn distWords ql = false ∧ anyKwIn compareWords ql = false ∧
         anyKwIn trendWords ql = true)) ∧
      (classifyIntent ql = Intent.fallback ↔
        (anyKwIn summaryWords ql = false ∧ anyKwIn statWords ql = false ∧
         anyKwIn distWords ql = false ∧ anyKwIn compareWords ql = false ∧
         anyKwIn trendWords ql = false)) ∧
      classifyIntent ql ≠ Intent.statNone) ∧
    classifyIntent (lowerChars "show me the mean and correlation") =
      Intent.statistical StatKind.meanK := by
  refine ⟨fun q => ⟨classifyIntent (lowerChars q), rfl, fun y hy => hy.symm⟩, fun ql => ?_, by decide⟩
  refine ⟨classifyIntent_summary_iff ql, ?_, ?_, ?_, ?_, ?_,
    classifyIntent_distribution_iff ql, classifyIntent_comparison_iff ql,
    classifyIntent_trend_iff ql, classifyIntent_fallback_iff ql,
    classifyIntent_ne_statNone ql⟩
  · rw [classifyIntent_statistical_iff, statSubKind_meanK_iff]
  · rw [classifyIntent_statistical_iff, statSubKind_medianK_iff]
  · rw [classifyIntent_statistical_iff, statSubKind_maxK_iff]
  · rw [classifyIntent_statistical_iff, statSubKind_minK_iff]
  · rw [classifyIntent_statistical_iff, statSubKind_corrK_iff]

/-- Witness for C1 at concrete queries: a summary query and the example
    query of the claim. -/
theorem C1_intent_classification_witness :
    classifyIntent (lowerChars "give me a summary") = Intent.summary ∧
    classifyIntent (lowerChars "show me the mean and correlation") =
      Intent.statistical StatKind.meanK :=
  ⟨(C1_intent_classification.2.1 (lowerChars "give me a summary")).1.mpr (by decide),
   C1_intent_classification.2.2⟩

/-- C2: for every trend query whose resolved value column starts (after
    sorting by the resolved time column) at 0 and ends at a nonzero value,
    the percent change is reported as positive infinity in a completed
    response, no exception raised; with a nonzero first value the percent
    change equals (last - first) / first * 100. -/
theorem C2_trend_percent_change :
    (∀ (q : String) (df : Frame) (tc t : String) (kc vc : Col) (i j : ℕ) (l : ℚ),
      classifyIntent (lowerChars q) = Intent.trend →
      resolveTimeCol df = some tc → tc.isEmpty = false →
      resolveTrendTarget (lowerChars q) df = some t → t.isEmpty = false →
      colByName df tc = some kc → colByName df t = some vc →
      (sortIdxBy kc.cells).head? = some i →
      (sortIdxBy kc.cells).getLast? = some j →
      vc.cells.getD i Val.na = Val.num 0 →
      vc.cells.getD j Val.na = Val.num l → l ≠ 0 →
      query_data_with_ai q df =
        .ok (.trendAnalysis t tc (Val.num 0) (Val.num l) (Val.num l) PctVal.posInf,
             some (.line tc t))) ∧
    (∀ (q : String) (df : Frame) (tc t : String) (kc vc : Col) (i j : ℕ) (f l : ℚ),
      classifyIntent (lowerChars q) = Intent.trend →
      resolveTimeCol df = some tc → tc.isEmpty = false →
      resolveTrendTarget (lowerChars q) df = some t → t.isEmpty = false →
      colByName df tc = some kc → colByName df t = some vc →
      (sortIdxBy kc.cells).head? = some i →
      (sortIdxBy kc.cells).getLast? = some j →
      vc.cells.getD i Val.na = Val.num f → f ≠ 0 →
      vc.cells.getD j Val.na = Val.num l →
      query_data_with_ai q df =
        .ok (.trendAnalysis t tc (Val.num f) (Val.num l) (Val.num (l - f))
               (PctVal.val ((l - f) / f * 100)),
             some (.line tc t))) := by
  constructor
  · intro q df tc t kc vc i j l hI hT htc hV ht hKC hVC hH hL hf hl hlnz
    simp only [query_data_with_ai, hI]
    simp only [trendBranch, hT, hV, optTruthy, htc, ht, Bool.not_false, if_true,
      Option.getD_some, hKC, hVC, hH, hL, hf, hl]
    simp only [subVal, pctChange, if_pos rfl, if_true, qSub_eq, sub_zero]
  · intro q df tc t kc vc i j f l hI hT htc hV ht hKC hVC hH hL hf hf0 hl
    simp only [query_data_with_ai, hI]
    simp only [trendBranch, hT, hV, optTruthy, htc, ht, Bool.not_false, if_true,
      Option.getD_some, hKC, hVC, hH, hL, hf, hl]
    simp only [subVal, pctChange, if_neg hf0, qSub_eq, qDiv_eq, qMul_eq]

/-- Witness for C2: a frame with a year column and a sales column starting
    at 0 (infinite percent change) and one starting at 4 (finite percent
    change 150). -/
theorem C2_trend_percent_change_witness :
    query_data_with_ai "trend of sales over time"
        ⟨[⟨"year", .numeric, [.num 1, .num 2, .num 3]⟩,
          ⟨"sales", .numeric, [.num 0, .num 5, .num 10]⟩]⟩ =
      .ok (.trendAnalysis "sales" "year" (Val.num 0) (Val.num 10) (Val.num 10)
             PctVal.posInf, some (.line "year" "sales")) ∧
    query_data_with_ai "trend of sales over time"
        ⟨[⟨"year", .numeric, [.num 1, .num 2, .num 3]⟩,
          ⟨"sales", .numeric, [.num 4, .num 5, .num 10]⟩]⟩ =
      .ok (.trendAnalysis "sales" "year" (Val.num 4) (Val.num 10) (Val.num (10 - 4))
             (PctVal.val ((10 - 4) / 4 * 100)), some (.line "year" "sales")) :=
  ⟨C2_trend_percent_change.1 "trend of sales over time" _ "year" "sales"
      ⟨"year", .numeric, [.num 1, .num 2, .num 3]⟩
      ⟨"sales", .numeric, [.num 0, .num 5, .num 10]⟩ 0 2 10
      (by decide) (by decide) (by decide) (by decide) (by decide) (by decide)
      (by decide) (by decide) (by decide) (by decide) (by decide) (by decide),
   C2_trend_percent_change.2 "trend of sales over time" _ "year" "sales"
      ⟨"year", .numeric, [.num 1, .num 2, .num 3]⟩
      ⟨"sales", .numeric, [.num 4, .num 5, .num 10]⟩ 0 2 4 10
      (by decide) (by decide) (by decide) (by decide) (by decide) (by decide)
      (by decide) (by decide) (by decide) (by decide) (by decide) (by decide)⟩

/-- C3 (code bug in the source): a dataset with two numeric columns that
    are both constant has an all-NaN correlation matrix, the strict
    greater-than scan then never selects a pair, and formatting the report
    looks the matrix up at the empty winner pair, raising KeyError — the
    correlation query does not complete although the numeric-column count
    is 2. -/
theorem C3_correlation_keyerror :
    (numericColNames ⟨[⟨"a", .numeric, [.num 1, .num 1]⟩,
                       ⟨"b", .numeric, [.num 2, .num 2]⟩]⟩).length = 2 ∧
    query_data_with_ai "correlation"
        ⟨[⟨"a", .numeric, [.num 1, .num 1]⟩,
          ⟨"b", .numeric, [.num 2, .num 2]⟩]⟩ = .error PyErr.keyError := by
  decide

/-- Membership and upper-bound property of `List.max?` via its `foldl`
    implementation. -/
theorem foldl_max_spec (as : List ℚ) (a : ℚ) :
    List.foldl max a as ∈ a :: as ∧ ∀ x, x ∈ a :: as → x ≤ List.foldl max a as := by
  induction as generalizing a with
  | nil => simp
  | cons b bs ih =>
      rcases ih (max a b) with ⟨hmem, hle⟩
      simp only [List.foldl_cons, List.mem_cons] at hmem hle ⊢
      constructor
      · rcases hmem with h | h
        · rcases max_choice a b with hm | hm
          · exact Or.inl (h.trans hm)
          · exact Or.inr (Or.inl (h.trans hm))
        · exact Or.inr (Or.inr h)
      · intro x hx
        rcases hx with hx | hx | hx
        · rw [hx]
          exact le_trans (le_max_left a b) (hle _ (Or.inl rfl))
        · rw [hx]
          exact le_trans (le_max_right a b) (hle _ (Or.inl rfl))
        · exact hle x (Or.inr hx)

/-- Characterization of `List.max?`: a returned maximum is a member and an
    upper bound. -/
theorem max?_spec {l : List ℚ} {m : ℚ} (h : l.max? = some m) :
    m ∈ l ∧ ∀ x, x ∈ l → x ≤ m := by
  cases l with
  | nil => simp [List.max?] at h
  | cons a as =>
      have hd : (a :: as).max? = some (List.foldl max a as) := rfl
      rw [hd] at h
      injection h with h
      subst h
      exact foldl_max_spec as a

/-- Membership and lower-bound property of `List.min?` via its `foldl`
    implementation. -/
theorem foldl_min_spec (as : List ℚ) (a : ℚ) :
    List.foldl min a as ∈ a :: as ∧ ∀ x, x ∈ a :: as → List.foldl min a as ≤ x := by
  induction as generalizing a with
  | nil => simp
  | cons b bs ih =>
      rcases ih (min a b) with ⟨hmem, hle⟩
      simp only [List.foldl_cons, List.mem_cons] at hmem hle ⊢
      constructor
      · rcases hmem with h | h
        · rcases min_choice a b with hm | hm
          · exact Or.inl (h.trans hm)
          · exact Or.inr (Or.inl (h.trans hm))
        · exact Or.inr (Or.inr h)
      · intro x hx
        rcases hx with hx | hx | hx
        · rw [hx]
          exact le_trans (hle _ (Or.inl rfl)) (min_le_left a b)
        · rw [hx]
          exact le_trans (hle _ (Or.inl rfl)) (min_le_right a b)
        · exact hle x (Or.inr hx)

/-- Characterization of `List.min?`: a returned minimum is a member and a
    lower bound. -/
theorem min?_spec {l : List ℚ} {m : ℚ} (h : l.min? = some m) :
    m ∈ l ∧ ∀ x, x ∈ l → m ≤ x := by
  cases l with
  | nil => simp [List.min?] at h
  | cons a as =>
      have hd : (a :: as).min? = some (List.foldl min a as) := rfl
      rw [hd] at h
      injection h with h
      subst h
      exact foldl_min_spec as a

/-- Characterization of `firstIdx`: the found index carries a satisfying
    element and every earlier index does not. -/
theorem firstIdx_spec {α : Type} (p : α → Bool) :
    ∀ (l : List α) (i : ℕ), firstIdx p l = some i →
      (∃ v, l.get? i = some v ∧ p v = true) ∧
      ∀ j, j < i → ∀ w, l.get? j = some w → p w = false := by
  intro l
  induction l with
  | nil => intro i h; simp [firstIdx] at h
  | cons a as ih =>
      intro i h
      rw [firstIdx] at h
      by_cases hp : p a
      · rw [if_pos hp] at h
        injection h with h
        subst h
        exact ⟨⟨a, rfl, hp⟩, fun j hj => absurd hj (Nat.not_lt_zero j)⟩
      · rw [if_neg hp] at h
        cases hrec : firstIdx p as with
        | none => rw [hrec] at h; simp at h
        | some k =>
            rw [hrec] at h
            simp only [Option.map_some'] at h
            injection h with h
            subst h
            rcases ih k hrec with ⟨⟨v, hv, hpv⟩, hbefore⟩
            refine ⟨⟨v, by simpa using hv, hpv⟩, ?_⟩
            intro j hj w hw
            cases j with
            | zero =>
                simp only [List.get?_cons_zero] at hw
                injection hw with hw
                subst hw
                simpa using hp
            | succ j2 =>
                apply hbefore j2 (Nat.lt_of_succ_lt_succ hj)
                simpa using hw

/-- C4: for every extremum query on a resolved numeric column, the
    reported value is the maximum (resp. minimum) of the column over its
    non-missing entries, and the reported row is the full frame row at the
    first index at which that extreme value occurs. -/
theorem C4_extremum_first_occurrence :
    (∀ (q : String) (df : Frame) (c : Col) (m : ℚ) (i : ℕ),
      classifyIntent (lowerChars q) = Intent.statistical StatKind.maxK →
      findTargetCol (lowerChars q) df = some c →
      c.name.isEmpty = false →
      (numericColNames df).contains c.name = true →
      colMax c = some m →
      firstIdx (fun v => v == Val.num m) c.cells = some i →
      query_data_with_ai q df =
        .ok (.maxAnalysis c.name m (rowAt df i),
             some (.histogram c.name false (some m))) ∧
      m ∈ cellsQ c ∧ (∀ x, x ∈ cellsQ c → x ≤ m) ∧
      c.cells.get? i = some (Val.num m) ∧
      (∀ j, j < i → c.cells.get? j ≠ some (Val.num m))) ∧
    (∀ (q : String) (df : Frame) (c : Col) (m : ℚ) (i : ℕ),
      classifyIntent (lowerChars q) = Intent.statistical StatKind.minK →
      findTargetCol (lowerChars q) df = some c →
      c.name.isEmpty = false →
      (numericColNames df).contains c.name = true →
      colMin c = some m →
      firstIdx (fun v => v == Val.num m) c.cells = some i →
      query_data_with_ai q df =
        .ok (.minAnalysis c.name m (rowAt df i),
             some (.histogram c.name false (some m))) ∧
      m ∈ cellsQ c ∧ (∀ x, x ∈ cellsQ c → m ≤ x) ∧
      c.cells.get? i = some (Val.num m) ∧
      (∀ j, j < i → c.cells.get? j ≠ some (Val.num m))) := by
  constructor
  · intro q df c m i hI hF hne hmem hM hIdx
    rcases max?_spec (l := cellsQ c) (m := m) hM with ⟨hmm, hub⟩
    rcases firstIdx_spec _ c.cells i hIdx with ⟨⟨v, hv, hpv⟩, hbefore⟩
    have hvm : v = Val.num m := by simpa using hpv
    refine ⟨?_, hmm, hub, by rw [← hvm]; exact hv, ?_⟩
    · simp only [query_data_with_ai, hI]
      simp only [maxBranch, hF, hne, hmem, Bool.not_false, Bool.and_self, if_true, hM, hIdx]
    · intro j hj hw
      have := hbefore j hj (Val.num m) hw
      simp at this
  · intro q df c m i hI hF hne hmem hM hIdx
    rcases min?_spec (l := cellsQ c) (m := m) hM with ⟨hmm, hlb⟩
    rcases firstIdx_spec _ c.cells i hIdx with ⟨⟨v, hv, hpv⟩, hbefore⟩
    have hvm : v = Val.num m := by simpa using hpv
    refine ⟨?_, hmm, hlb, by rw [← hvm]; exact hv, ?_⟩
    · simp only [query_data_with_ai, hI]
      simp only [minBranch, hF, hne, hmem, Bool.not_false, Bool.and_self, if_true, hM, hIdx]
    · intro j hj hw
      have := hbefore j hj (Val.num m) hw
      simp at this

/-- Witness for C4 on the column values 3, 1, 4, 1, 5 of the claim: the
    maximum 5 is reported with the row at index 4 and the minimum 1 with
    the row at index 1 (not index 3). -/
theorem C4_extremum_first_occurrence_witness :
    (query_data_with_ai "maximum score"
        ⟨[⟨"score", .numeric, [.num 3, .num 1, .num 4, .num 1, .num 5]⟩]⟩ =
      .ok (.maxAnalysis "score" 5
             (rowAt ⟨[⟨"score", .numeric, [.num 3, .num 1, .num 4, .num 1, .num 5]⟩]⟩ 4),
           some (.histogram "score" false (some 5)))) ∧
    (query_data_with_ai "minimum score"
        ⟨[⟨"score", .numeric, [.num 3, .num 1, .num 4, .num 1, .num 5]⟩]⟩ =
      .ok (.minAnalysis "score" 1
             (rowAt ⟨[⟨"score", .numeric, [.num 3, .num 1, .num 4, .num 1, .num 5]⟩]⟩ 1),
           some (.histogram "score" false (some 1)))) :=
  ⟨(C4_extremum_first_occurrence.1 "maximum score" _
      ⟨"score", .numeric, [.num 3, .num 1, .num 4, .num 1, .num 5]⟩ 5 4
      (by decide) (by decide) (by decide) (by decide) (by decide) (by decide)).1,
   (C4_extremum_first_occurrence.2 "minimum score" _
      ⟨"score", .numeric, [.num 3, .num 1, .num 4, .num 1, .num 5]⟩ 1 1
      (by decide) (by decide) (by decide) (by decide) (by decide) (by decide)).1⟩

/-- Characterization of `List.find?` as the element at the least index
    satisfying the predicate. -/
theorem find?_first_iff {α : Type} (p : α → Bool) :
    ∀ (l : List α) (c : α),
      l.find? p = some c ↔
        ∃ i, l.get? i = some c ∧ p c = true ∧
          ∀ j, j < i → ∀ w, l.get? j = some w → p w = false := by
  intro l
  induction l with
  | nil => intro c; simp [List.find?]
  | cons a as ih =>
      intro c
      by_cases hp : p a
      · rw [List.find?_cons_of_pos _ hp]
        constructor
        · intro h
          injection h with h
          subst h
          exact ⟨0, rfl, hp, fun j hj => absurd hj (Nat.not_lt_zero j)⟩
        · rintro ⟨i, hi, hpc, hbef⟩
          cases i with
          | zero =>
              simp only [List.get?_cons_zero] at hi
              exact hi.symm ▸ rfl
          | succ k =>
              have := hbef 0 (Nat.succ_pos k) a rfl
              rw [hp] at this
              cases this
      · rw [List.find?_cons_of_neg _ hp]
        rw [ih c]
        constructor
        · rintro ⟨i, hi, hpc, hbef⟩
          refine ⟨i + 1, by simpa using hi, hpc, ?_⟩
          intro j hj w hw
          cases j with
          | zero =>
              simp only [List.get?_cons_zero] at hw
              injection hw with hw
              subst hw
              simpa using hp
          | succ k =>
              exact hbef k (Nat.lt_of_succ_lt_succ hj) w (by simpa using hw)
        · rintro ⟨i, hi, hpc, hbef⟩
          cases i with
          | zero =>
              simp only [List.get?_cons_zero] at hi
              injection hi with hi
              subst hi
              rw [hpc] at hp
              cases hp rfl
          | succ k =>
              refine ⟨k, by simpa using hi, hpc, ?_⟩
              intro j hj w hw
              exact hbef (j + 1) (Nat.succ_lt_succ hj) w (by simpa using hw)

/-- A nonempty filter result locates its head at the least satisfying
    index, with the tail being the filter of the remaining suffix. -/
theorem filter_cons_first {α : Type} (p : α → Bool) :
    ∀ (l : List α) (c : α) (t : List α),
      l.filter p = c :: t →
        ∃ i, l.get? i = some c ∧ p c = true ∧
          (∀ k, k < i → ∀ w, l.get? k = some w → p w = false) ∧
          (l.drop (i + 1)).filter p = t := by
  intro l
  induction l with
  | nil => intro c t h; simp at h
  | cons a as ih =>
      intro c t h
      by_cases hp : p a
      · rw [List.filter_cons_of_pos hp] at h
        injection h with h1 h2
        subst h1
        exact ⟨0, rfl, hp, fun k hk => absurd hk (Nat.not_lt_zero k), by simpa using h2⟩
      · rw [List.filter_cons_of_neg hp] at h
        rcases ih c t h with ⟨i, hi, hpc, hbef, hrest⟩
        refine ⟨i + 1, by simpa using hi, hpc, ?_, by simpa using hrest⟩
        intro k hk w hw
        cases k with
        | zero =>
            simp only [List.get?_cons_zero] at hw
            injection hw with hw
            subst hw
            simpa using hp
        | succ k2 =>
            exact hbef k2 (Nat.lt_of_succ_lt_succ hk) w (by simpa using hw)

/-- C5: column resolution iterates column names in dataset order and
    selects a column exactly when its lowercased name is a substring of
    the lowercased query; a single-column intent uses the column at the
    least matching index (so of two matching columns the earlier-indexed
    one wins, regardless of specificity), and a comparison uses the first
    two matches, in dataset order, as the pair. -/
theorem C5_column_resolution :
    (∀ (ql : List Char) (df : Frame) (c : Col),
      findTargetCol ql df = some c ↔
        ∃ i, df.cols.get? i = some c ∧ charsHas ql (lowerChars c.name) = true ∧
          ∀ j, j < i → ∀ d, df.cols.get? j = some d →
            charsHas ql (lowerChars d.name) = false) ∧
    (∀ (ql : List Char) (df : Frame) (c : Col),
      c ∈ df.cols.filter (fun d => charsHas ql (lowerChars d.name)) ↔
        (c ∈ df.cols ∧ charsHas ql (lowerChars c.name) = true)) ∧
    (∀ (ql : List Char) (df : Frame) (c1 c2 : Col) (rest : List Col),
      df.cols.filter (fun d => charsHas ql (lowerChars d.name)) = c1 :: c2 :: rest →
        ∃ i j, i < j ∧ df.cols.get? i = some c1 ∧ df.cols.get? j = some c2 ∧
          charsHas ql (lowerChars c1.name) = true ∧
          charsHas ql (lowerChars c2.name) = true ∧
          (∀ k, k < i → ∀ d, df.cols.get? k = some d →
            charsHas ql (lowerChars d.name) = false) ∧
          (∀ k, i < k → k < j → ∀ d, df.cols.get? k = some d →
            charsHas ql (lowerChars d.name) = false)) := by
  refine ⟨fun ql df c => find?_first_iff _ df.cols c, fun ql df c => List.mem_filter, ?_⟩
  intro ql df c1 c2 rest h
  rcases filter_cons_first _ df.cols c1 (c2 :: rest) h with ⟨i, hi, hp1, hbef1, hrest1⟩
  rcases filter_cons_first _ (df.cols.drop (i + 1)) c2 rest hrest1 with
    ⟨i2, hi2, hp2, hbef2, _⟩
  refine ⟨i, i + 1 + i2, by omega, hi, ?_, hp1, hp2, hbef1, ?_⟩
  · rw [← hi2, List.get?_drop]
  · intro k hk1 hk2 d hd
    have hk : k = i + 1 + (k - (i + 1)) := by omega
    apply hbef2 (k - (i + 1)) (by omega) d
    rw [List.get?_drop]
    rw [← hk]
    exact hd

/-- Witness for C5: a frame with columns price, price_usd and cost; in
    the query "compare price_usd and cost" all three columns match, the
    single-column resolver picks the earlier-indexed price although
    price_usd is the more specific match, and the comparison pair is the
    first two matches in dataset order. -/
theorem C5_column_resolution_witness :
    (∃ i, (⟨[⟨"price", .numeric, [.num 1]⟩, ⟨"price_usd", .numeric, [.num 2]⟩,
             ⟨"cost", .numeric, [.num 3]⟩]⟩ : Frame).cols.get? i =
            some ⟨"price", .numeric, [.num 1]⟩ ∧
          charsHas (lowerChars "compare price_usd and cost")
            (lowerChars "price") = true ∧
          ∀ j, j < i → ∀ d,
            (⟨[⟨"price", .numeric, [.num 1]⟩, ⟨"price_usd", .numeric, [.num 2]⟩,
               ⟨"cost", .numeric, [.num 3]⟩]⟩ : Frame).cols.get? j = some d →
            charsHas (lowerChars "compare price_usd and cost")
              (lowerChars d.name) = false) ∧
    (∃ i j, i < j ∧
      (⟨[⟨"price", .numeric, [.num 1]⟩, ⟨"price_usd", .numeric, [.num 2]⟩,
         ⟨"cost", .numeric, [.num 3]⟩]⟩ : Frame).cols.get? i =
        some ⟨"price", .numeric, [.num 1]⟩ ∧
      (⟨[⟨"price", .numeric, [.num 1]⟩, ⟨"price_usd", .numeric, [.num 2]⟩,
         ⟨"cost", .numeric, [.num 3]⟩]⟩ : Frame).cols.get? j =
        some ⟨"price_usd", .numeric, [.num 2]⟩ ∧
      charsHas (lowerChars "compare price_usd and cost") (lowerChars "price") = true ∧
      charsHas (lowerChars "compare price_usd and cost") (lowerChars "price_usd") = true ∧
      (∀ k, k < i → ∀ d,
        (⟨[⟨"price", .numeric, [.num 1]⟩, ⟨"price_usd", .numeric, [.num 2]⟩,
           ⟨"cost", .numeric, [.num 3]⟩]⟩ : Frame).cols.get? k = some d →
        charsHas (lowerChars "compare price_usd and cost") (lowerChars d.name) = false) ∧
      (∀ k, i < k → k < j → ∀ d,
        (⟨[⟨"price", .numeric, [.num 1]⟩, ⟨"price_usd", .numeric, [.num 2]⟩,
           ⟨"cost", .numeric, [.num 3]⟩]⟩ : Frame).cols.get? k = some d →
        charsHas (lowerChars "compare price_usd and cost") (lowerChars d.name) = false)) :=
  ⟨(C5_column_resolution.1 (lowerChars "compare price_usd and cost")
      ⟨[⟨"price", .numeric, [.num 1]⟩, ⟨"price_usd", .numeric, [.num 2]⟩,
        ⟨"cost", .numeric, [.num 3]⟩]⟩ ⟨"price", .numeric, [.num 1]⟩).mp (by decide),
   C5_column_resolution.2.2 (lowerChars "compare price_usd and cost")
      ⟨[⟨"price", .numeric, [.num 1]⟩, ⟨"price_usd", .numeric, [.num 2]⟩,
        ⟨"cost", .numeric, [.num 3]⟩]⟩ ⟨"price", .numeric, [.num 1]⟩
      ⟨"price_usd", .numeric, [.num 2]⟩ [⟨"cost", .numeric, [.num 3]⟩] (by decide)⟩

/-- Unfolding of the scan comparison: the Boolean `abs(entry) > highest`
    is the cross-multiplied comparison of squares. -/
theorem absGtB_iff (w acc : CorrVal) :
    absGtB (some w) acc = true ↔ acc.cov ^ 2 * w.den < w.cov ^ 2 * acc.den := by
  simp only [absGtB, decide_eq_true_eq, qMul_eq, pow_two]

/-- Boundedness of one matrix entry against a reference value `v`, used to
    express that pairs scanned before (strict) or after (weak) the winner
    do not beat it: `NaN` entries and diagonal pairs are trivially
    bounded, a real entry needs a positive denominator and a strictly
    (resp. weakly) smaller squared-covariance ratio. -/
def cvBound (strict : Bool) (p : String × String) (x : Option CorrVal) (v : CorrVal) : Bool :=
  p.1 == p.2 ||
    match x with
    | none => true
    | some w =>
        decide (0 < w.den) &&
          (if strict then decide (qMul (qMul w.cov w.cov) v.den < qMul (qMul v.cov v.cov) w.den)
           else decide (qMul (qMul w.cov w.cov) v.den ≤ qMul (qMul v.cov v.cov) w.den))

/-- A fold of scan steps that all leave the accumulator unchanged is the
    identity. -/
theorem foldl_hcStep_fix (m : String → String → Option CorrVal)
    (L : List (String × String)) :
    ∀ acc, (∀ p, p ∈ L → hcStep m acc p = acc) → L.foldl (hcStep m) acc = acc := by
  induction L with
  | nil => intro acc _; rfl
  | cons p ps ih =>
      intro acc h
      rw [List.foldl_cons, h p (by simp)]
      exact ih acc (fun q hq => h q (by simp [hq]))

/-- Invariant of the scan before the winner is reached: as long as every
    real off-diagonal entry is strictly below the winner value, the
    accumulator keeps a positive denominator and stays strictly below the
    winner value. -/
theorem foldl_hcStep_inv (m : String → String → Option CorrVal) (v : CorrVal)
    (L : List (String × String)) :
    ∀ acc : CorrVal × String × String,
      0 < acc.1.den → acc.1.cov ^ 2 * v.den < v.cov ^ 2 * acc.1.den →
      (∀ p, p ∈ L → cvBound true p (m p.1 p.2) v = true) →
      0 < (L.foldl (hcStep m) acc).1.den ∧
        (L.foldl (hcStep m) acc).1.cov ^ 2 * v.den <
          v.cov ^ 2 * (L.foldl (hcStep m) acc).1.den := by
  induction L with
  | nil => intro acc h1 h2 _; exact ⟨h1, h2⟩
  | cons p ps ih =>
      intro acc h1 h2 hb
      rw [List.foldl_cons]
      have hbp := hb p (by simp)
      rcases hstep : hcStep m acc p with ⟨w, pr⟩
      have : hcStep m acc p = (w, pr) := hstep
      rw [← this]
      cases hm : m p.1 p.2 with
      | none =>
          have hid : hcStep m acc p = acc := by simp [hcStep, hm]
          rw [hid]
          exact ih acc h1 h2 (fun q hq => hb q (by simp [hq]))
      | some u =>
          by_cases hcond : (p.1 != p.2 && absGtB (some u) acc.1) = true
          · have hupd : hcStep m acc p = (⟨|u.cov|, u.den⟩, p.1, p.2) := by
              simp [hcStep, hm, hcond]
            rw [hupd]
            have hne : p.1 ≠ p.2 := by
              rw [Bool.and_eq_true] at hcond
              exact bne_iff_ne.mp hcond.1
            have hbdd : (decide (0 < u.den) &&
                (decide (qMul (qMul u.cov u.cov) v.den <
                  qMul (qMul v.cov v.cov) u.den))) = true := by
              rw [cvBound.eq_def, Bool.or_eq_true] at hbp
              rcases hbp with hdg | hrest
              · exact absurd (by simpa using hdg) hne
              · simpa [hm] using hrest
            rw [Bool.and_eq_true] at hbdd
            rcases hbdd with ⟨hd1, hd2⟩
            have hden : 0 < u.den := of_decide_eq_true hd1
            have hlt : u.cov * u.cov * v.den < v.cov * v.cov * u.den := by
              have := of_decide_eq_true hd2
              simpa [qMul_eq] using this
            apply ih
            · exact hden
            · simp only [pow_two]
              calc |u.cov| * |u.cov| * v.den = u.cov * u.cov * v.den := by
                    rw [← abs_mul, abs_mul_self]
                _ < v.cov * v.cov * u.den := hlt
            · exact fun q hq => hb q (by simp [hq])
          · have hid : hcStep m acc p = acc := by
              simp only [hcStep, hm]
              rw [if_neg hcond]
            rw [hid]
            exact ih acc h1 h2 (fun q hq => hb q (by simp [hq]))

/-- After the winner is installed, weakly bounded later entries never
    replace it. -/
theorem hcStep_fix_after (m : String → String → Option CorrVal) (v : CorrVal)
    (a b : String) (p : String × String)
    (hb : cvBound false p (m p.1 p.2) v = true) :
    hcStep m (⟨|v.cov|, v.den⟩, a, b) p = (⟨|v.cov|, v.den⟩, a, b) := by
  cases hm : m p.1 p.2 with
  | none => simp [hcStep, hm]
  | some u =>
      by_cases hdg : p.1 = p.2
      · have hfalse : (p.1 != p.2) = false := by simp [hdg]
        simp [hcStep, hm, hfalse]
      · have hbdd : (decide (0 < u.den) &&
            (decide (qMul (qMul u.cov u.cov) v.den ≤
              qMul (qMul v.cov v.cov) u.den))) = true := by
          rw [cvBound.eq_def, Bool.or_eq_true] at hb
          rcases hb with hdg2 | hrest
          · exact absurd (by simpa using hdg2) hdg
          · simpa [hm] using hrest
        rw [Bool.and_eq_true] at hbdd
        rcases hbdd with ⟨_, hd2⟩
        have hle : u.cov * u.cov * v.den ≤ v.cov * v.cov * u.den := by
          have := of_decide_eq_true hd2
          simpa [qMul_eq] using this
        have hng : absGtB (some u) ⟨|v.cov|, v.den⟩ = false := by
          rw [← Bool.not_eq_true]
          intro hcontra
          rw [absGtB_iff] at hcontra
          simp only [pow_two] at hcontra
          rw [← abs_mul, abs_mul_self] at hcontra
          exact absurd hcontra (not_lt.mpr hle)
        simp [hcStep, hm, hng]

/-- C6: correlation tie-break — when several distinct column pairs attain
    the maximal absolute correlation, the winner reported by the scan is
    the pair encountered first in the nested column-iteration order,
    because only a strictly greater absolute correlation replaces the
    current winner: if every valid pair scanned before (a, b) is strictly
    below its absolute value and every valid pair scanned after is weakly
    below (ties allowed), the scan reports (a, b). -/
theorem C6_correlation_tiebreak
    (m : String → String → Option CorrVal) (cols : List String)
    (L1 L2 : List (String × String)) (a b : String) (v : CorrVal)
    (hsplit : pairList cols = L1 ++ (a, b) :: L2)
    (hab : a ≠ b) (hv : m a b = some v) (hden : 0 < v.den) (hcov : v.cov ≠ 0)
    (hL1 : ∀ p, p ∈ L1 → cvBound true p (m p.1 p.2) v = true)
    (hL2 : ∀ p, p ∈ L2 → cvBound false p (m p.1 p.2) v = true) :
    (findHighest m cols).2 = (a, b) := by
  unfold findHighest
  rw [hsplit, List.foldl_append]
  have hinv := foldl_hcStep_inv m v L1 (⟨0, 1⟩, "", "")
    (by norm_num) (by simpa using pow_two_pos_of_ne_zero hcov) hL1
  rcases hinv with ⟨hd1, hlt1⟩
  set acc1 := L1.foldl (hcStep m) ((⟨0, 1⟩ : CorrVal), "", "") with hacc1
  rw [List.foldl_cons]
  have hupd : hcStep m acc1 (a, b) = (⟨|v.cov|, v.den⟩, a, b) := by
    have hcond : ((a, b).1 != (a, b).2 && absGtB (some v) acc1.1) = true := by
      rw [Bool.and_eq_true]
      refine ⟨bne_iff_ne.mpr hab, ?_⟩
      rw [absGtB_iff]
      exact hlt1
    simp [hcStep, hv, hcond]
  rw [hupd]
  rw [foldl_hcStep_fix m L2 _ (fun p hp => hcStep_fix_after m v a b p (hL2 p hp))]

/-- Witness for C6: a three-column matrix in which the pairs (x, y) and
    (x, z) share the maximal absolute correlation 1/sqrt(2) (values
    (1, 2) and (-1, 2)); the scan reports (x, y), the tied pair met first. -/
theorem C6_correlation_tiebreak_witness :
    (findHighest
        (fun c1 c2 =>
          if c1 = c2 then some ⟨1, 1⟩
          else if (c1 = "x" && c2 = "y") || (c1 = "y" && c2 = "x") then some ⟨1, 2⟩
          else if (c1 = "x" && c2 = "z") || (c1 = "z" && c2 = "x") then some ⟨-1, 2⟩
          else some ⟨1, 8⟩)
        ["x", "y", "z"]).2 = ("x", "y") :=
  C6_correlation_tiebreak _ ["x", "y", "z"]
    [("x", "x")]
    [("x", "z"), ("y", "x"), ("y", "y"), ("y", "z"), ("z", "x"), ("z", "y"), ("z", "z")]
    "x" "y" ⟨1, 2⟩ (by decide) (by decide) (by decide) (by decide) (by decide)
    (by decide) (by decide)

/-- C7: when no column name occurs (lowercased) in the lowercased query,
    every intent that requires a query-named column resolves to its fixed
    guidance message with no chart: the four statistical single-column
    branches, the distribution branch and the comparison branch; the trend
    branch emits its fixed value-column message when its value slot has no
    candidates at all (no numeric column). -/
theorem C7_unresolved_column_message (q : String) (df : Frame)
    (hNo : ∀ c, c ∈ df.cols → charsHas (lowerChars q) (lowerChars c.name) = false) :
    (classifyIntent (lowerChars q) = Intent.statistical StatKind.meanK →
      query_data_with_ai q df = .ok (.cantIdentifyNumeric "average", none)) ∧
    (classifyIntent (lowerChars q) = Intent.statistical StatKind.medianK →
      query_data_with_ai q df = .ok (.cantIdentifyNumeric "median", none)) ∧
    (classifyIntent (lowerChars q) = Intent.statistical StatKind.maxK →
      query_data_with_ai q df = .ok (.cantIdentifyNumeric "maximum", none)) ∧
    (classifyIntent (lowerChars q) = Intent.statistical StatKind.minK →
      query_data_with_ai q df = .ok (.cantIdentifyNumeric "minimum", none)) ∧
    (classifyIntent (lowerChars q) = Intent.distribution →
      query_data_with_ai q df = .ok (.cantIdentifyColumn, none)) ∧
    (classifyIntent (lowerChars q) = Intent.comparison →
      query_data_with_ai q df = .ok (.cantIdentifyCompare, none)) ∧
    (classifyIntent (lowerChars q) = Intent.trend →
      optTruthy (resolveTimeCol df) = true → numericColNames df = [] →
      query_data_with_ai q df = .ok (.cantIdentifyTrendValue, none)) := by
  have hF : findTargetCol (lowerChars q) df = none := by
    rw [findTargetCol, List.find?_eq_none]
    intro c hc
    simp [hNo c hc]
  have hFil : df.cols.filter (fun c => charsHas (lowerChars q) (lowerChars c.name)) = [] := by
    rw [List.filter_eq_nil]
    intro c hc
    simp [hNo c hc]
  refine ⟨fun hI => ?_, fun hI => ?_, fun hI => ?_, fun hI => ?_, fun hI => ?_,
    fun hI => ?_, fun hI hT hNum => ?_⟩
  · simp only [query_data_with_ai, hI, meanBranch, hF]
  · simp only [query_data_with_ai, hI, medianBranch, hF]
  · simp only [query_data_with_ai, hI, maxBranch, hF]
  · simp only [query_data_with_ai, hI, minBranch, hF]
  · simp only [query_data_with_ai, hI, distBranch, hF]
  · simp only [query_data_with_ai, hI, compareBranch, hFil]
  · have hTarget : resolveTrendTarget (lowerChars q) df = none := by
      simp [resolveTrendTarget, hNum]
    simp only [query_data_with_ai, hI, trendBranch, hTarget, hT, eq_self_iff_true, if_true]
    simp [optTruthy]

/-- Witness for C7: the dataset has only a price column, the query asks
    for the average of sales, no column name occurs in the query, and the
    fixed unresolved-column message is returned with a null chart. -/
theorem C7_unresolved_column_message_witness :
    (∀ c, c ∈ (⟨[⟨"price", .numeric, [.num 10, .num 20, .num 30, .num 40]⟩]⟩ : Frame).cols →
      charsHas (lowerChars "what is the average of sales?") (lowerChars c.name) = false) ∧
    query_data_with_ai "what is the average of sales?"
        ⟨[⟨"price", .numeric, [.num 10, .num 20, .num 30, .num 40]⟩]⟩ =
      .ok (.cantIdentifyNumeric "average", none) :=
  ⟨by decide,
   (C7_unresolved_column_message "what is the average of sales?"
      ⟨[⟨"price", .numeric, [.num 10, .num 20, .num 30, .num 40]⟩]⟩ (by decide)).1
      (by decide)⟩

/-- Membership in a bucket of `detect_data_types` names a column of the
    frame classified into that bucket. -/
theorem mem_bucketList_iff (df : Frame) (n : String) (b : Bucket) :
    n ∈ (detect_data_types df).bucketList b ↔
      ∃ d, d ∈ df.cols ∧ d.name = n ∧ classifyCol (nrows df) d = b := by
  cases b <;>
    simp [detect_data_types, ColumnTypes.bucketList, List.mem_map, List.mem_filter,
      and_assoc, and_comm]

/-- C8: the column type classifier assigns every column of every frame to
    exactly one of the five buckets (the buckets partition the columns);
    a numeric-dtype column with at most two distinct non-missing values
    all drawn from 0/1 (Python True and False equal 1 and 0) goes to the
    boolean bucket; and a non-numeric non-datetime column of a frame with
    zero rows is classified categorical. -/
theorem C8_type_classifier_partition :
    (∀ (df : Frame) (c : Col), (df.cols.map (fun d => d.name)).Nodup → c ∈ df.cols →
      ∃! b : Bucket, c.name ∈ (detect_data_types df).bucketList b) ∧
    (∀ (df : Frame) (c : Col), c ∈ df.cols →
      isNumericDtype c.kind = true → nunique c ≤ 2 →
      (∀ v, v ∈ nonNaCells c → v = Val.num 0 ∨ v = Val.num 1) →
      c.name ∈ (detect_data_types df).boolean) ∧
    (∀ (df : Frame) (c : Col), c ∈ df.cols →
      nrows df = 0 → c.cells.length = nrows df →
      isNumericDtype c.kind = false → c.kind ≠ ColKind.datetime →
      c.name ∈ (detect_data_types df).categorical) := by
  refine ⟨?_, ?_, ?_⟩
  · intro df c hnd hc
    refine ⟨classifyCol (nrows df) c, ?_, ?_⟩
    · exact (mem_bucketList_iff df c.name _).mpr ⟨c, hc, rfl, rfl⟩
    · intro b hb
      rcases (mem_bucketList_iff df c.name b).mp hb with ⟨d, hd, hdn, hcl⟩
      have : d = c := List.inj_on_of_nodup_map hnd hd hc hdn
      rw [← hcl, this]
  · intro df c hc hnum hnu hvals
    have hbl : boolLike c = true := by
      rw [boolLike, Bool.and_eq_true]
      refine ⟨by simpa using hnu, ?_⟩
      rw [List.all_eq_true]
      intro v hv
      rcases hvals v hv with h | h <;> simp [h]
    have hcl : classifyCol (nrows df) c = Bucket.boolean := by
      rw [classifyCol]
      have hdt : (c.kind == ColKind.datetime) = false := by
        cases hk : c.kind <;> simp_all [isNumericDtype]
      rw [hdt]
      simp only [Bool.false_eq_true, if_false, hnum, if_true, hbl]
    have := (mem_bucketList_iff df c.name Bucket.boolean).mpr ⟨c, hc, rfl, hcl⟩
    simpa [ColumnTypes.bucketList] using this
  · intro df c hc hr hlen hnum hdt
    have hcells : c.cells = [] := by
      rw [hr] at hlen
      exact List.length_eq_zero.mp hlen
    have hnu : nunique c = 0 := by
      simp [nunique, nonNaCells, firstUniques, hcells]
    have hcl : classifyCol (nrows df) c = Bucket.categorical := by
      rw [classifyCol]
      have hdt2 : (c.kind == ColKind.datetime) = false := by
        cases hk : c.kind <;> simp_all
      rw [hdt2]
      simp only [Bool.false_eq_true, if_false, hnum]
      cases hk : c.kind <;> simp_all [avgLenGt50, strLens, hcells, hnu, hr]
    have := (mem_bucketList_iff df c.name Bucket.categorical).mpr ⟨c, hc, rfl, hcl⟩
    simpa [ColumnTypes.bucketList] using this

/-- Witness for C8 on three concrete frames: a two-column frame whose
    columns land in exactly one bucket each, a 0/1-valued numeric column
    classified boolean, and a zero-row object column classified
    categorical. -/
theorem C8_type_classifier_partition_witness :
    (∃! b : Bucket, "flag" ∈
      (detect_data_types ⟨[⟨"flag", .numeric, [.num 0, .num 1]⟩,
                           ⟨"price", .numeric, [.num 3, .num 7]⟩]⟩).bucketList b) ∧
    "flag" ∈ (detect_data_types ⟨[⟨"flag", .numeric, [.num 0, .num 1]⟩,
                                  ⟨"price", .numeric, [.num 3, .num 7]⟩]⟩).boolean ∧
    "city" ∈ (detect_data_types ⟨[⟨"city", .object, []⟩]⟩).categorical :=
  ⟨C8_type_classifier_partition.1
      ⟨[⟨"flag", .numeric, [.num 0, .num 1]⟩, ⟨"price", .numeric, [.num 3, .num 7]⟩]⟩
      ⟨"flag", .numeric, [.num 0, .num 1]⟩ (by decide) (by decide),
   C8_type_classifier_partition.2.1
      ⟨[⟨"flag", .numeric, [.num 0, .num 1]⟩, ⟨"price", .numeric, [.num 3, .num 7]⟩]⟩
      ⟨"flag", .numeric, [.num 0, .num 1]⟩ (by decide) (by decide) (by decide) (by decide),
   C8_type_classifier_partition.2.2 ⟨[⟨"city", .object, []⟩]⟩ ⟨"city", .object, []⟩
      (by decide) (by decide) (by decide) (by decide) (by decide)⟩

/-- C9: for every correlation query that succeeds (at least two numeric
    columns, winner pair found in the matrix), the chart returned is the
    scatter plot with trendline of the strongest pair; the heatmap of the
    matrix is assigned to the chart variable first but overridden before
    return, and the returned chart is not a heatmap. -/
theorem C9_correlation_chart_scatter (q : String) (df : Frame)
    (hI : classifyIntent (lowerChars q) = Intent.statistical StatKind.corrK)
    (hn : 2 ≤ (numericColNames df).length)
    (h1 : (numericColNames df).contains
      (findHighest (corrMat df) (numericColNames df)).2.1 = true)
    (h2 : (numericColNames df).contains
      (findHighest (corrMat df) (numericColNames df)).2.2 = true) :
    query_data_with_ai q df =
      .ok (.corrAnalysis (findHighest (corrMat df) (numericColNames df)).2.1
             (findHighest (corrMat df) (numericColNames df)).2.2
             (corrMat df (findHighest (corrMat df) (numericColNames df)).2.1
               (findHighest (corrMat df) (numericColNames df)).2.2),
           some (.scatter (findHighest (corrMat df) (numericColNames df)).2.1
             (findHighest (corrMat df) (numericColNames df)).2.2 true)) ∧
    ∀ cs, (some (Chart.scatter (findHighest (corrMat df) (numericColNames df)).2.1
      (findHighest (corrMat df) (numericColNames df)).2.2 true) : Option Chart) ≠
        some (.corrHeatmap cs) := by
  constructor
  · simp only [query_data_with_ai, hI, corrBranch, if_pos hn, h1, h2, Bool.and_self]
    simp
  · intro cs
    simp

/-- Witness for C9: two perfectly correlated numeric columns; the winner
    pair is (a, b) and the final chart is the scatter of a against b. -/
theorem C9_correlation_chart_scatter_witness :
    query_data_with_ai "correlate a and b"
        ⟨[⟨"a", .numeric, [.num 1, .num 2, .num 3]⟩,
          ⟨"b", .numeric, [.num 1, .num 2, .num 3]⟩]⟩ =
      .ok (.corrAnalysis
             (findHighest
               (corrMat ⟨[⟨"a", .numeric, [.num 1, .num 2, .num 3]⟩,
                          ⟨"b", .numeric, [.num 1, .num 2, .num 3]⟩]⟩)
               (numericColNames ⟨[⟨"a", .numeric, [.num 1, .num 2, .num 3]⟩,
                                 ⟨"b", .numeric, [.num 1, .num 2, .num 3]⟩]⟩)).2.1
             (findHighest
               (corrMat ⟨[⟨"a", .numeric, [.num 1, .num 2, .num 3]⟩,
                          ⟨"b", .numeric, [.num 1, .num 2, .num 3]⟩]⟩)
               (numericColNames ⟨[⟨"a", .numeric, [.num 1, .num 2, .num 3]⟩,
                                 ⟨"b", .numeric, [.num 1, .num 2, .num 3]⟩]⟩)).2.2
             (corrMat ⟨[⟨"a", .numeric, [.num 1, .num 2, .num 3]⟩,
                        ⟨"b", .numeric, [.num 1, .num 2, .num 3]⟩]⟩
               (findHighest
                 (corrMat ⟨[⟨"a", .numeric, [.num 1, .num 2, .num 3]⟩,
                            ⟨"b", .numeric, [.num 1, .num 2, .num 3]⟩]⟩)
                 (numericColNames ⟨[⟨"a", .numeric, [.num 1, .num 2, .num 3]⟩,
                                   ⟨"b", .numeric, [.num 1, .num 2, .num 3]⟩]⟩)).2.1
               (findHighest
                 (corrMat ⟨[⟨"a", .numeric, [.num 1, .num 2, .num 3]⟩,
                            ⟨"b", .numeric, [.num 1, .num 2, .num 3]⟩]⟩)
                 (numericColNames ⟨[⟨"a", .numeric, [.num 1, .num 2, .num 3]⟩,
                                   ⟨"b", .numeric, [.num 1, .num 2, .num 3]⟩]⟩)).2.2),
           some (.scatter
             (findHighest
               (corrMat ⟨[⟨"a", .numeric, [.num 1, .num 2, .num 3]⟩,
                          ⟨"b", .numeric, [.num 1, .num 2, .num 3]⟩]⟩)
               (numericColNames ⟨[⟨"a", .numeric, [.num 1, .num 2, .num 3]⟩,
                                 ⟨"b", .numeric, [.num 1, .num 2, .num 3]⟩]⟩)).2.1
             (findHighest
               (corrMat ⟨[⟨"a", .numeric, [.num 1, .num 2, .num 3]⟩,
                          ⟨"b", .numeric, [.num 1, .num 2, .num 3]⟩]⟩)
               (numericColNames ⟨[⟨"a", .numeric, [.num 1, .num 2, .num 3]⟩,
                                 ⟨"b", .numeric, [.num 1, .num 2, .num 3]⟩]⟩)).2.2 true)) :=
  (C9_correlation_chart_scatter "correlate a and b"
      ⟨[⟨"a", .numeric, [.num 1, .num 2, .num 3]⟩,
        ⟨"b", .numeric, [.num 1, .num 2, .num 3]⟩]⟩
      (by decide) (by decide) (by decide) (by decide)).1

/-- C10: when the first column whose lowercased name occurs in the query
    exists but is not a numeric column, the four single-column statistical
    branches return the same fixed guidance message with no chart —
    resolution stops at the first match and never skips to a later
    numeric column, so naming a categorical column behaves exactly like
    naming no column at all. -/
theorem C10_nonnumeric_first_match (q : String) (df : Frame) (c : Col)
    (hF : findTargetCol (lowerChars q) df = some c)
    (hnn : (numericColNames df).contains c.name = false) :
    (classifyIntent (lowerChars q) = Intent.statistical StatKind.meanK →
      query_data_with_ai q df = .ok (.cantIdentifyNumeric "average", none)) ∧
    (classifyIntent (lowerChars q) = Intent.statistical StatKind.medianK →
      query_data_with_ai q df = .ok (.cantIdentifyNumeric "median", none)) ∧
    (classifyIntent (lowerChars q) = Intent.statistical StatKind.maxK →
      query_data_with_ai q df = .ok (.cantIdentifyNumeric "maximum", none)) ∧
    (classifyIntent (lowerChars q) = Intent.statistical StatKind.minK →
      query_data_with_ai q df = .ok (.cantIdentifyNumeric "minimum", none)) := by
  refine ⟨fun hI => ?_, fun hI => ?_, fun hI => ?_, fun hI => ?_⟩
  · simp only [query_data_with_ai, hI, meanBranch, hF, hnn, Bool.and_false, Bool.false_eq_true, if_false]
  · simp only [query_data_with_ai, hI, medianBranch, hF, hnn, Bool.and_false, Bool.false_eq_true, if_false]
  · simp only [query_data_with_ai, hI, maxBranch, hF, hnn, Bool.and_false, Bool.false_eq_true, if_false]
  · simp only [query_data_with_ai, hI, minBranch, hF, hnn, Bool.and_false, Bool.false_eq_true, if_false]

/-- Witness for C10: the categorical column category is the first match of
    the query although the numeric column price also matches later; the
    mean and maximum branches return the fixed message with no chart. -/
theorem C10_nonnumeric_first_match_witness :
    query_data_with_ai "what is the average price by category?"
        ⟨[⟨"category", .object, [.str "a", .str "b"]⟩,
          ⟨"price", .numeric, [.num 1, .num 2]⟩]⟩ =
      .ok (.cantIdentifyNumeric "average", none) ∧
    query_data_with_ai "maximum price by category"
        ⟨[⟨"category", .object, [.str "a", .str "b"]⟩,
          ⟨"price", .numeric, [.num 1, .num 2]⟩]⟩ =
      .ok (.cantIdentifyNumeric "maximum", none) :=
  ⟨(C10_nonnumeric_first_match "what is the average price by category?"
      ⟨[⟨"category", .object, [.str "a", .str "b"]⟩,
        ⟨"price", .numeric, [.num 1, .num 2]⟩]⟩
      ⟨"category", .object, [.str "a", .str "b"]⟩ (by decide) (by decide)).1 (by decide),
   (C10_nonnumeric_first_match "maximum price by category"
      ⟨[⟨"category", .object, [.str "a", .str "b"]⟩,
        ⟨"price", .numeric, [.num 1, .num 2]⟩]⟩
      ⟨"category", .object, [.str "a", .str "b"]⟩ (by decide) (by decide)).2.2.1 (by decide)⟩
